import Mathlib

/-
Shallow embedding of the Monte Carlo life-simulation engine `mc_sim.py`.

Modelling conventions, used uniformly below:
* Python dicts are association lists `List (String × _)` preserving insertion
  order (Python 3.7+ semantics).  All dicts the program builds have unique
  keys, so removing a key is modelled by dropping every entry with that key
  and updating a key by mapping over every entry with that key.
* Python floats are modelled as exact rationals `ℚ`.  The two transcendental
  primitives the source uses, `math.exp` and the float power `**`, are
  irrational-valued in general and are kept abstract as a `RealOps`
  parameter; `RealOps.one_pow` records the one law of the real power
  function (`1.0 ** e = 1.0`) that concrete instantiations rely on.
* `int(round(x))` is `pythonRound` (round half to even, as Python 3 does).
* The global random generator, seeded once per run by `random.seed(seed)`,
  is an explicit stream `RNG` of uniform draws in `[0,1)`; every sampling
  operation (`random.random()`, `random.choice`) consumes one draw.
* Fallible operations (a dict lookup that can raise `KeyError`, indexing an
  empty list) return `Option`, and the run propagates `none` like an
  uncaught exception.
-/

attribute [local semireducible] Rat.mul Rat.add Rat.sub Rat.inv Rat.ofScientific

/-- Python 3 `round` to the nearest integer, ties to even, on exact values. -/
def pythonRound (q : ℚ) : ℤ :=
  if q - ⌊q⌋ < 1/2 then ⌊q⌋
  else if (1:ℚ)/2 < q - ⌊q⌋ then ⌊q⌋ + 1
  else if ⌊q⌋ % 2 = 0 then ⌊q⌋ else ⌊q⌋ + 1

/-- `clamp(v, lo, hi)` from mc_sim.py: `max(lo, min(hi, v))`. -/
def clamp (v lo hi : ℚ) : ℚ := max lo (min hi v)

/-- Dict lookup (`d[k]` / `d.get(k)`), first matching key. -/
def alook {α : Type} : List (String × α) → String → Option α
  | [], _ => none
  | (k', v) :: t, k => if k' = k then some v else alook t k

/-- Membership test `k in d`. -/
def ahas {α : Type} (a : List (String × α)) (k : String) : Bool :=
  (alook a k).isSome

/-- Dict update `d[k] = v` for a key already present (unique-key dicts:
mapping over all matching entries coincides with Python's in-place update). -/
def aset {α : Type} (a : List (String × α)) (k : String) (v : α) :
    List (String × α) :=
  a.map (fun p => if p.1 = k then (k, v) else p)

/-- Python `dict.setdefault(k, v)`: append at the end if the key is absent. -/
def asetd {α : Type} (a : List (String × α)) (k : String) (v : α) :
    List (String × α) :=
  if ahas a k then a else a ++ [(k, v)]

/-- Python `dict.pop(k, None)`: drop the key (unique-key dicts: dropping all
matching entries coincides with removing the key). -/
def aerase {α : Type} : List (String × α) → String → List (String × α)
  | [], _ => []
  | (k', v) :: t, k => if k' = k then aerase t k else (k', v) :: aerase t k

/-- `d[k] = v` if the key is present, else insert it at the end. -/
def asetOrApp {α : Type} (a : List (String × α)) (k : String) (v : α) :
    List (String × α) :=
  if ahas a k then aset a k v else a ++ [(k, v)]

/-- `d[k] = d.get(k, 0) + 1`, the counter update used for seen/trigger counts. -/
def abump (a : List (String × ℕ)) (k : String) : List (String × ℕ) :=
  match alook a k with
  | some n => aset a k (n + 1)
  | none => a ++ [(k, 1)]

/-- The real-valued primitives `math.exp` and float `**`, kept abstract.
`one_pow` is the law of the real power function used when instantiating. -/
structure RealOps where
  exp : ℚ → ℚ
  pow : ℚ → ℚ → ℚ
  one_pow : ∀ e, pow 1 e = 1

/-- The per-run seeded uniform random stream: `stream n` is the `n`-th draw
of `random.random()` in `[0,1)`, `idx` the number of draws consumed. -/
structure RNG where
  stream : ℕ → ℚ
  idx : ℕ

/-- Consume one uniform draw. -/
def RNG.next (g : RNG) : ℚ × RNG := (g.stream g.idx, ⟨g.stream, g.idx + 1⟩)

/-- `random.choice(xs)`: one uniform draw selects an index; an empty sequence
is an error. -/
def randChoice {α : Type} (g : RNG) (xs : List α) : Option (α × RNG) :=
  match xs.get? (Int.toNat ⌊g.next.1 * (xs.length : ℚ)⌋) with
  | some x => some (x, g.next.2)
  | none => none

/-- The `stats` dict of `simulate_one`, with its five fixed attributes. -/
structure Stats where
  money : ℚ
  health : ℚ
  stress : ℚ
  family : ℚ
  friendship : ℚ
deriving DecidableEq

/-- A condition definition from the state registry (states.json entry). -/
structure StateDef where
  id : String
  type : String
  duration : Option ℤ
  stacking : Option String
  monthly_effect : List (String × ℚ)
deriving DecidableEq

/-- One outcome of an event: immediate effects, optional special action tag,
and condition ids to add/remove. -/
structure Choice where
  effects : List (String × ℚ)
  action : Option String
  add_states : List String
  remove_states : List String
deriving DecidableEq

/-- An event from the catalog. `base_weight` is optional; `draw_event` reads
it with default 1.0. -/
structure Event where
  id : String
  primary_tag : String
  base_weight : Option ℚ
  choices : List Choice
deriving DecidableEq

/-- The configuration, flattened from the nested config.json sections. -/
structure Config where
  alpha : ℚ
  soft_floor : ℚ
  health_base_regen : ℚ
  stress_base_decay : ℚ
  relationship_base_regen : ℚ
  inflation_per_year : ℚ
  wage_growth_per_year : ℚ
  rent : ℚ
  pos_money_mult : ℚ
  neg_money_mult : ℚ
  stress_mult : ℚ
  anti_repeat_beta : ℚ
  recent_window : ℕ
  recent_penalty : ℚ
  money_hard : ℚ
  eviction_months : ℤ
  collections_strikes : ℕ
  max_months : ℕ
  turns_per_month : ℕ
  start_money : ℚ
  start_health : ℚ
  start_stress : ℚ
  start_family : ℚ
  start_friendship : ℚ
deriving DecidableEq

/-- `TAGS` from mc_sim.py. -/
def TAGS : List String :=
  ["job", "debt", "housing", "health", "social", "admin", "car", "money"]

/-- The `state_tag_mult` literal from `simulate_one`. -/
def state_tag_mult : List (String × List (String × ℚ)) :=
  [("S_LAYOFF", [("job", 1.6), ("debt", 1.35), ("money", 0.9), ("social", 0.95)]),
   ("S_RENT_ARREARS", [("housing", 1.7), ("debt", 1.25), ("job", 1.1)]),
   ("S_HIGH_INTEREST_LOAN", [("debt", 1.55), ("money", 0.85)]),
   ("S_CREDIT_CARD_DEBT", [("debt", 1.25), ("money", 0.92)]),
   ("S_INJURED", [("health", 1.55), ("job", 0.95)]),
   ("S_HEALTH_SCARE", [("health", 1.35), ("admin", 1.1)]),
   ("S_IMMIGRATION_ISSUE", [("admin", 1.55), ("job", 1.1)]),
   ("S_CAR_BROKEN", [("car", 1.8), ("job", 1.05)]),
   ("S_SOCIAL_ISOLATION", [("social", 1.45), ("health", 1.1)]),
   ("S_WINDFALL_BUFFER", [("debt", 0.88), ("housing", 0.92), ("money", 1.12)]),
   ("S_RENT_DUE", [("housing", 2.2)]),
   ("S_TAX_DUE", [("admin", 2.0)]),
   ("S_TRAFFIC_TICKET", [("car", 1.6), ("admin", 1.15)]),
   ("S_COLLECTIONS_NOTICE", [("debt", 1.4), ("admin", 1.2)])]

/-- `effective_gain(base_gain, stat_value, cfg)`: diminishing returns on
positive gains, `base * exp(-alpha * max(0, soft_floor - stat_value))`. -/
def effective_gain (ro : RealOps) (cfg : Config) (base_gain stat_value : ℚ) : ℚ :=
  if base_gain ≤ 0 then base_gain
  else base_gain * ro.exp (-(cfg.alpha * max 0 (cfg.soft_floor - stat_value)))

/-- `cost_factor(month, cfg) = (1 + inflation) ** (month / 12)`. -/
def cost_factor (ro : RealOps) (cfg : Config) (month : ℕ) : ℚ :=
  ro.pow (1 + cfg.inflation_per_year) ((month : ℚ) / 12)

/-- `wage_factor(month, cfg) = (1 + wage_growth) ** (month / 12)`. -/
def wage_factor (ro : RealOps) (cfg : Config) (month : ℕ) : ℚ :=
  ro.pow (1 + cfg.wage_growth_per_year) ((month : ℚ) / 12)

/-- One step of `apply_effects`: add the delta to the named attribute (keys
other than the five stats are ignored), then clamp-and-round the four
bounded attributes. -/
def applyEffect1 (s : Stats) (k : String) (dv : ℚ) : Stats :=
  if k = "money" then { s with money := s.money + dv }
  else if k = "health" then
    { s with health := (pythonRound (clamp (s.health + dv) 0 100) : ℚ) }
  else if k = "stress" then
    { s with stress := (pythonRound (clamp (s.stress + dv) 0 100) : ℚ) }
  else if k = "family" then
    { s with family := (pythonRound (clamp (s.family + dv) 0 100) : ℚ) }
  else if k = "friendship" then
    { s with friendship := (pythonRound (clamp (s.friendship + dv) 0 100) : ℚ) }
  else s

/-- `apply_effects(stats, effects)` from mc_sim.py. -/
def apply_effects (s : Stats) (effects : List (String × ℚ)) : Stats :=
  effects.foldl (fun acc p => applyEffect1 acc p.1 p.2) s

/-- `add_state(active, sdef)`: counters and indefinite conditions are
installed with no countdown; re-adding a timed condition refreshes or
extends its remaining duration per the stacking policy. -/
def add_state (active : List (String × Option ℤ)) (sdef : StateDef) :
    List (String × Option ℤ) :=
  if sdef.type = "counter" then asetd active sdef.id none
  else
    match sdef.duration with
    | none => asetd active sdef.id none
    | some dur =>
      match alook active sdef.id with
      | some (some r) =>
        if sdef.stacking.getD "refresh" = "extend" then
          aset active sdef.id (some (r + dur))
        else aset active sdef.id (some dur)
      | some none => aset active sdef.id (some dur)
      | none => active ++ [(sdef.id, some dur)]

/-- `remove_state(active, sid)`. -/
def remove_state (active : List (String × Option ℤ)) (sid : String) :
    List (String × Option ℤ) :=
  aerase active sid

/-- `monthly_passive(stats, cfg)`: passive health regen, stress decay and
relationship regen, each rounded and applied through `apply_effects`. -/
def monthly_passive (ro : RealOps) (cfg : Config) (s : Stats) : Stats :=
  let dh := effective_gain ro cfg (cfg.health_base_regen * (1 - s.stress / 140)) s.health
  let ds := -(cfg.stress_base_decay * (0.6 + s.health / 140 + s.friendship / 250))
  let dr := effective_gain ro cfg (cfg.relationship_base_regen * (1 - s.stress / 140)) s.family
  let df := effective_gain ro cfg (cfg.relationship_base_regen * (1 - s.stress / 140)) s.friendship
  apply_effects s
    [("health", (pythonRound dh : ℚ)), ("stress", (pythonRound ds : ℚ)),
     ("family", (pythonRound dr : ℚ)), ("friendship", (pythonRound df : ℚ))]

/-- `tag_weights(active_states, state_tag_mult)`: start at 1.0 per tag,
multiply in every active condition's per-tag multiplier, clamp to
[0.75, 1.55]. -/
def tag_weights (active : List (String × Option ℤ))
    (stm : List (String × List (String × ℚ))) : List (String × ℚ) :=
  TAGS.map (fun t =>
    (t, clamp (active.foldl (fun w p =>
          match alook stm p.1 with
          | none => w
          | some mods =>
            match alook mods t with
            | none => w
            | some m => w * m) 1) 0.75 1.55))

/-- The cumulative scan of `weighted_choice`: return the first item whose
running cumulative weight is ≥ the draw value `r`. -/
def wcGo {α : Type} : List (α × ℚ) → ℚ → ℚ → Option α
  | [], _, _ => none
  | (it, w) :: rest, r, acc =>
    if r ≤ acc + w then some it else wcGo rest r (acc + w)

/-- `weighted_choice(items, weights)` with the uniform draw `u` made
explicit (`r = u * total`); falls back to the last item if the scan finds
none, and is an error on an empty item list. -/
def weighted_choice {α : Type} (items : List α) (weights : List ℚ) (u : ℚ) :
    Option α :=
  match wcGo (items.zip weights) (u * weights.sum) 0 with
  | some x => some x
  | none => items.getLast?

/-- One step of `build_pools`: append the event to its primary tag's pool. -/
def poolAdd (ps : List (String × List Event)) (ev : Event) :
    List (String × List Event) :=
  match alook ps ev.primary_tag with
  | some l => aset ps ev.primary_tag (l ++ [ev])
  | none => ps ++ [(ev.primary_tag, [ev])]

/-- `build_pools(events)`: group the catalog by primary tag. -/
def build_pools (events : List Event) : List (String × List Event) :=
  events.foldl poolAdd []

/-- The last `n` elements of a list (Python `l[-n:]` for `n > 0`). -/
def lastN {α : Type} (l : List α) (n : ℕ) : List α := l.drop (l.length - n)

/-- The candidate weight computed inside `draw_event`:
`base_weight / (1 + times_seen) ** beta`, times the recency penalty if the
event id is among the last `recent_window` entries of the (bounded)
recent-draw list. -/
def eventWeight (ro : RealOps) (cfg : Config) (seen : List (String × ℕ))
    (recent : List String) (ev : Event) : ℚ :=
  let sn := (alook seen ev.id).getD 0
  let w := ev.base_weight.getD 1 / ro.pow (1 + (sn : ℚ)) cfg.anti_repeat_beta
  let recentSet := if 0 < cfg.recent_window then lastN recent cfg.recent_window else []
  if ev.id ∈ recentSet then w * cfg.recent_penalty else w

/-- The static data `simulate_one` threads to its helpers: the event pools,
the state registry index, the configuration, the real-valued primitives and
the tag-multiplier table. -/
structure Env where
  pools : List (String × List Event)
  state_index : List (String × StateDef)
  cfg : Config
  ro : RealOps
  stm : List (String × List (String × ℚ))

/-- `draw_event`: draw a tag by condition-weighted choice, then an event
from that tag's pool weighted by rarity, anti-repeat decay and recency
penalty.  A tag with no pool is a lookup error. -/
def draw_event (env : Env) (active : List (String × Option ℤ))
    (seen : List (String × ℕ)) (recent : List String) (g : RNG) :
    Option (Event × RNG) :=
  match weighted_choice ((tag_weights active env.stm).map Prod.fst)
      ((tag_weights active env.stm).map Prod.snd) (g.next.1) with
  | none => none
  | some tag =>
    match alook env.pools tag with
    | none => none
    | some pool =>
      match weighted_choice pool (pool.map (eventWeight env.ro env.cfg seen recent))
          (g.next.2.next.1) with
      | none => none
      | some ev => some (ev, g.next.2.next.2)

/-- Read one of the five stats by its dict key (0 for an unknown key; the
guarded uses below only read the three recoverable attributes). -/
def statGet (s : Stats) (k : String) : ℚ :=
  if k = "money" then s.money
  else if k = "health" then s.health
  else if k = "stress" then s.stress
  else if k = "family" then s.family
  else if k = "friendship" then s.friendship
  else 0

/-- The per-entry scaling `apply_choice` performs on an effects dict before
calling `apply_effects`: diminishing returns on positive recoverable gains,
wage/cost multipliers on money (with the ×0.85 high-interest-loan penalty on
positive money applied after the positive multiplier, before the single
rounding), and the flat stress multiplier. -/
def choiceVal (ro : RealOps) (cfg : Config) (month : ℕ) (s : Stats)
    (active : List (String × Option ℤ)) (k : String) (v : ℚ) : ℚ :=
  if (k = "health" ∨ k = "family" ∨ k = "friendship") ∧ 0 < v then
    (pythonRound (effective_gain ro cfg v (statGet s k)) : ℚ)
  else if k = "money" then
    if 0 < v then
      let m := v * cfg.pos_money_mult * wage_factor ro cfg month
      let m := if ahas active "S_HIGH_INTEREST_LOAN" then m * 0.85 else m
      (pythonRound m : ℚ)
    else (pythonRound (v * cfg.neg_money_mult * cost_factor ro cfg month) : ℚ)
  else if k = "stress" then (pythonRound (v * cfg.stress_mult) : ℚ)
  else v

/-- The effects-dict transformation of `apply_choice` (entry-wise on a
unique-key dict). -/
def choiceTransform (ro : RealOps) (cfg : Config) (month : ℕ) (s : Stats)
    (active : List (String × Option ℤ)) (eff : List (String × ℚ)) :
    List (String × ℚ) :=
  eff.map (fun p => (p.1, choiceVal ro cfg month s active p.1 p.2))

/-- The per-entry scaling `apply_state_monthly` performs on a condition's
monthly-effect dict: as `choiceVal`, except that positive money under an
active high-interest loan is rounded to an integer after the ×0.85 penalty
and rounded a second time after the positive-money multiplier. -/
def monthlyVal (ro : RealOps) (cfg : Config) (month : ℕ) (s : Stats)
    (active : List (String × Option ℤ)) (k : String) (v : ℚ) : ℚ :=
  if (k = "health" ∨ k = "family" ∨ k = "friendship") ∧ 0 < v then
    (pythonRound (effective_gain ro cfg v (statGet s k)) : ℚ)
  else if k = "money" then
    let r : ℚ :=
      if 0 < v ∧ ahas active "S_HIGH_INTEREST_LOAN" then (pythonRound (v * 0.85) : ℚ)
      else v
    if 0 < r then (pythonRound (r * cfg.pos_money_mult * wage_factor ro cfg month) : ℚ)
    else (pythonRound (r * cfg.neg_money_mult * cost_factor ro cfg month) : ℚ)
  else if k = "stress" then (pythonRound (v * cfg.stress_mult) : ℚ)
  else v

/-- The effects-dict transformation of `apply_state_monthly` (entry-wise on
a unique-key dict). -/
def monthlyTransform (ro : RealOps) (cfg : Config) (month : ℕ) (s : Stats)
    (active : List (String × Option ℤ)) (eff : List (String × ℚ)) :
    List (String × ℚ) :=
  eff.map (fun p => (p.1, monthlyVal ro cfg month s active p.1 p.2))

/-- One `add_states` entry of `apply_choice`: look the condition up in the
registry (an unknown id is an error) and install it. -/
def addStateByIdx (env : Env) (a : List (String × Option ℤ)) (sid : String) :
    Option (List (String × Option ℤ)) :=
  match alook env.state_index sid with
  | none => none
  | some sdef => some (add_state a sdef)

/-- One `remove_states` entry of `apply_choice`: drop the condition and
reset the arrears counter if the arrears condition is removed. -/
def removeStateStep (p : List (String × Option ℤ) × ℤ) (sid : String) :
    List (String × Option ℤ) × ℤ :=
  (remove_state p.1 sid, if sid = "S_RENT_ARREARS" then 0 else p.2)

/-- `apply_choice(stats, ch, active, counters, cfg, month, state_index)`:
charge dynamic rent for a `PAY_RENT` action, scale and apply the effects,
then add/remove the listed conditions (an unknown condition id is an
error), resetting the arrears counter when arrears is removed. -/
def apply_choice (env : Env) (month : ℕ) (ch : Choice) (s : Stats)
    (active : List (String × Option ℤ)) (arrears : ℤ) :
    Option (Stats × List (String × Option ℤ) × ℤ) :=
  match ch.add_states.foldlM (addStateByIdx env) active with
  | none => none
  | some active1 =>
    some (apply_effects s (choiceTransform env.ro env.cfg month s active
            (if ch.action = some "PAY_RENT" then
              asetOrApp ch.effects "money"
                ((alook ch.effects "money").getD 0 -
                  (pythonRound (env.cfg.rent * cost_factor env.ro env.cfg month) : ℚ))
            else ch.effects)),
          ch.remove_states.foldl removeStateStep (active1, arrears))

/-- The stats update of one `apply_state_monthly` iteration: the
condition's scaled monthly effect, suppressed for a paycheck while a layoff
is active. -/
def stateMonthlyStats (env : Env) (month : ℕ)
    (acc : Stats × List (String × Option ℤ) × ℤ) (sid : String)
    (sdef : StateDef) : Stats :=
  if sid = "S_PAYCHECK" ∧ ahas acc.2.1 "S_LAYOFF" then acc.1
  else apply_effects acc.1
    (monthlyTransform env.ro env.cfg month acc.1 acc.2.1 sdef.monthly_effect)

/-- One iteration of the `apply_state_monthly` loop, for the condition id
`sid`: apply its scaled monthly effect (suppressed for the paycheck when a
layoff is active), advance the arrears counter for the arrears counter
condition, and decrement/remove a timed condition's countdown. -/
def stateMonthlyStep (env : Env) (month : ℕ)
    (acc : Stats × List (String × Option ℤ) × ℤ) (sid : String) :
    Option (Stats × List (String × Option ℤ) × ℤ) :=
  match alook env.state_index sid with
  | none => none
  | some sdef =>
    if sdef.type = "counter" then
      some (stateMonthlyStats env month acc sid sdef, acc.2.1,
            if sid = "S_RENT_ARREARS" then acc.2.2 + 1 else acc.2.2)
    else
      match alook acc.2.1 sid with
      | none => none
      | some none => some (stateMonthlyStats env month acc sid sdef, acc.2.1, acc.2.2)
      | some (some rem) =>
        if rem - 1 ≤ 0 then
          some (stateMonthlyStats env month acc sid sdef,
                remove_state acc.2.1 sid, acc.2.2)
        else
          some (stateMonthlyStats env month acc sid sdef,
                aset acc.2.1 sid (some (rem - 1)), acc.2.2)

/-- `apply_state_monthly`: iterate over a snapshot of the active condition
ids, threading stats, active conditions and the arrears counter. -/
def apply_state_monthly (env : Env) (month : ℕ) (s : Stats)
    (active : List (String × Option ℤ)) (arrears : ℤ) :
    Option (Stats × List (String × Option ℤ) × ℤ) :=
  (active.map Prod.fst).foldlM (stateMonthlyStep env month) (s, active, arrears)

/-- `month_end_rent`: if a rent-due condition is active, either pay the
cost-scaled rent (with one point of stress relief) or, lacking funds, swap
the due condition for an arrears condition; then always install a fresh
rent-due condition for the next month. -/
def month_end_rent (env : Env) (month : ℕ) (s : Stats)
    (active : List (String × Option ℤ)) :
    Option (Stats × List (String × Option ℤ)) :=
  match
    (if ahas active "S_RENT_DUE" then
      if ((pythonRound (env.cfg.rent * cost_factor env.ro env.cfg month) : ℤ) : ℚ) ≤ s.money then
        some (apply_effects s
            [("money", -((pythonRound (env.cfg.rent * cost_factor env.ro env.cfg month) : ℤ) : ℚ)),
             ("stress", -1)],
          remove_state active "S_RENT_DUE")
      else
        match alook env.state_index "S_RENT_ARREARS" with
        | none => none
        | some arr => some (s, add_state (remove_state active "S_RENT_DUE") arr)
    else some (s, active)),
    alook env.state_index "S_RENT_DUE" with
  | some p, some rd => some (p.1, add_state p.2 rd)
  | _, _ => none

/-- The money fatal signal: money below the hard threshold. -/
abbrev moneyBreach (cfg : Config) (s : Stats) : Prop :=
  s.money < cfg.money_hard

/-- The arrears fatal signal: an arrears condition active for at least the
configured eviction months. -/
abbrev arrearsBreach (cfg : Config) (active : List (String × Option ℤ))
    (arrears : ℤ) : Prop :=
  ahas active "S_RENT_ARREARS" = true ∧ cfg.eviction_months ≤ arrears

/-- The vital-stat fatal signal: any of health/family/friendship at or
below 0, or stress at or above 100. -/
abbrev vitalBreach (s : Stats) : Prop :=
  s.health ≤ 0 ∨ 100 ≤ s.stress ∨ s.family ≤ 0 ∨ s.friendship ≤ 0

/-- `fatal_strikes(stats, active_states, counters, cfg)`: one strike per
fatal signal group. -/
def fatal_strikes (s : Stats) (active : List (String × Option ℤ))
    (arrears : ℤ) (cfg : Config) : ℕ :=
  (if moneyBreach cfg s then 1 else 0) +
  (if arrearsBreach cfg active arrears then 1 else 0) +
  (if vitalBreach s then 1 else 0)

/-- Append a drawn event id to the recent list, keeping only the last 40. -/
def pushRecent (recent : List String) (id : String) : List String :=
  let r := recent ++ [id]
  if 40 < r.length then r.drop (r.length - 40) else r

/-- The mutable per-run state threaded through `simulate_one`'s loops. -/
structure RunState where
  stats : Stats
  active : List (String × Option ℤ)
  arrears : ℤ
  seen : List (String × ℕ)
  recent : List String
  counts : List (String × ℕ)
  rng : RNG

/-- The early-return payload of `simulate_one` on failure: `len(seen_counts)`
and the per-event trigger counts. -/
abbrev RunRes := ℕ × List (String × ℕ)

/-- The result of `simulate_one`: outcome, distinct events seen, trigger
counts. -/
abbrev RunOut := Bool × ℕ × List (String × ℕ)

/-- One turn of the inner loop of `simulate_one`: draw an event, update the
trigger/seen/recent tracking, draw a choice uniformly, apply it. -/
def runTurn (env : Env) (month : ℕ) (st : RunState) : Option RunState :=
  match draw_event env st.active st.seen st.recent st.rng with
  | none => none
  | some (ev, g1) =>
    match randChoice g1 ev.choices with
    | none => none
    | some (ch, g2) =>
      match apply_choice env month ch st.stats st.active st.arrears with
      | none => none
      | some (s, a, arr) =>
        some ⟨s, a, arr, abump st.seen ev.id, pushRecent st.recent ev.id,
              abump st.counts ev.id, g2⟩

/-- The inner turn loop with its per-turn termination check: stop with the
failure payload the instant the strike count reaches the threshold. -/
def turnsLoop (env : Env) (month : ℕ) : ℕ → RunState → Option (RunState ⊕ RunRes)
  | 0, st => some (Sum.inl st)
  | n + 1, st =>
    match runTurn env month st with
    | none => none
    | some st1 =>
      if env.cfg.collections_strikes ≤ fatal_strikes st1.stats st1.active st1.arrears env.cfg then
        some (Sum.inr (st1.seen.length, st1.counts))
      else turnsLoop env month n st1

/-- The month loop of `simulate_one`: passive tick, monthly condition
processing, the turns, the rent cycle and its termination check. -/
def monthsLoop (env : Env) : ℕ → ℕ → RunState → Option RunOut
  | _, 0, st => some (true, st.seen.length, st.counts)
  | m, n + 1, st =>
    match apply_state_monthly env m (monthly_passive env.ro env.cfg st.stats) st.active st.arrears with
    | none => none
    | some (s2, a2, c2) =>
      match turnsLoop env m env.cfg.turns_per_month
          ⟨s2, a2, c2, st.seen, st.recent, st.counts, st.rng⟩ with
      | none => none
      | some (Sum.inr r) => some (false, r.1, r.2)
      | some (Sum.inl st3) =>
        match month_end_rent env m st3.stats st3.active with
        | none => none
        | some (s4, a4) =>
          if env.cfg.collections_strikes ≤
              fatal_strikes s4 a4 st3.arrears env.cfg then
            some (false, st3.seen.length, st3.counts)
          else monthsLoop env (m + 1) n
            ⟨s4, a4, st3.arrears, st3.seen, st3.recent, st3.counts, st3.rng⟩

/-- The environment `simulate_one` builds from its arguments. -/
def mkEnv (events : List Event) (states : List StateDef) (cfg : Config)
    (ro : RealOps) : Env :=
  ⟨build_pools events, states.map (fun s => (s.id, s)), cfg, ro, state_tag_mult⟩

/-- The Setup phase of `simulate_one`: initial stats from the configuration,
install the initial rent-due and paycheck conditions. -/
def initState (events : List Event) (states : List StateDef) (cfg : Config)
    (ro : RealOps) (g : RNG) : Option RunState :=
  match alook (mkEnv events states cfg ro).state_index "S_RENT_DUE",
        alook (mkEnv events states cfg ro).state_index "S_PAYCHECK" with
  | some rd, some pc =>
    some ⟨⟨cfg.start_money, cfg.start_health, cfg.start_stress,
           cfg.start_family, cfg.start_friendship⟩,
          add_state (add_state [] rd) pc, 0, [], [], [], g⟩
  | _, _ => none

/-- `simulate_one(events, states, cfg, seed)`, with the seeded random stream
`g` explicit. -/
def simulate_one (events : List Event) (states : List StateDef) (cfg : Config)
    (ro : RealOps) (g : RNG) : Option RunOut :=
  match initState events states cfg ro g with
  | none => none
  | some st0 => monthsLoop (mkEnv events states cfg ro) 0 cfg.max_months st0

/-- The inner turn loop instrumented with the strike count observed at each
termination check. -/
def turnsLoopI (env : Env) (month : ℕ) :
    ℕ → RunState → Option ((RunState ⊕ RunRes) × List ℕ)
  | 0, st => some (Sum.inl st, [])
  | n + 1, st =>
    match runTurn env month st with
    | none => none
    | some st1 =>
      if env.cfg.collections_strikes ≤ fatal_strikes st1.stats st1.active st1.arrears env.cfg then
        some (Sum.inr (st1.seen.length, st1.counts),
              [fatal_strikes st1.stats st1.active st1.arrears env.cfg])
      else
        match turnsLoopI env month n st1 with
        | none => none
        | some (r, tr) =>
          some (r, fatal_strikes st1.stats st1.active st1.arrears env.cfg :: tr)

/-- The month loop instrumented with the strike count at each termination
check and, for each month-end rent check reached, whether a rent-due
condition was active when the check started. -/
def monthsLoopI (env : Env) :
    ℕ → ℕ → RunState → Option (RunOut × List ℕ × List Bool)
  | _, 0, st => some ((true, st.seen.length, st.counts), [], [])
  | m, n + 1, st =>
    match apply_state_monthly env m (monthly_passive env.ro env.cfg st.stats) st.active st.arrears with
    | none => none
    | some (s2, a2, c2) =>
      match turnsLoopI env m env.cfg.turns_per_month
          ⟨s2, a2, c2, st.seen, st.recent, st.counts, st.rng⟩ with
      | none => none
      | some (Sum.inr r, tr) => some ((false, r.1, r.2), tr, [])
      | some (Sum.inl st3, tr) =>
        match month_end_rent env m st3.stats st3.active with
        | none => none
        | some (s4, a4) =>
          if env.cfg.collections_strikes ≤
              fatal_strikes s4 a4 st3.arrears env.cfg then
            some ((false, st3.seen.length, st3.counts),
                  tr ++ [fatal_strikes s4 a4 st3.arrears env.cfg],
                  [ahas st3.active "S_RENT_DUE"])
          else
            match monthsLoopI env (m + 1) n
                ⟨s4, a4, st3.arrears, st3.seen, st3.recent, st3.counts, st3.rng⟩ with
            | none => none
            | some (out, tr2, fl2) =>
              some (out, tr ++ fatal_strikes s4 a4 st3.arrears env.cfg :: tr2,
                    ahas st3.active "S_RENT_DUE" :: fl2)

/-- `simulate_one` instrumented with the check traces of `monthsLoopI`. -/
def simulateI (events : List Event) (states : List StateDef) (cfg : Config)
    (ro : RealOps) (g : RNG) : Option (RunOut × List ℕ × List Bool) :=
  match initState events states cfg ro g with
  | none => none
  | some st0 => monthsLoopI (mkEnv events states cfg ro) 0 cfg.max_months st0

/-- A lawful concrete instantiation of the real primitives, agreeing with
the real `exp`/`**` at every application the concrete developments below
evaluate (all of which have base 1, so the value is forced to 1). -/
def roOne : RealOps := ⟨fun _ => 1, fun _ _ => 1, fun _ => rfl⟩

/-- The all-zeros uniform stream. -/
def gZero : RNG := ⟨fun _ => 0, 0⟩

/-- A rent-due condition definition: indefinite, no monthly effect. -/
def rdDef : StateDef := ⟨"S_RENT_DUE", "state", none, none, []⟩

/-- A paycheck condition definition with no monthly effect. -/
def pcDef : StateDef := ⟨"S_PAYCHECK", "state", none, none, []⟩

/-- An arrears counter condition definition. -/
def arDef : StateDef := ⟨"S_RENT_ARREARS", "counter", none, none, []⟩

/-- The minimal state registry for the concrete runs. -/
def stsW : List StateDef := [rdDef, pcDef, arDef]

/-- A single job event whose only choice does nothing. -/
def evW : Event := ⟨"E1", "job", some 1, [⟨[], none, [], []⟩]⟩

/-- A single job event whose only choice removes the rent-due condition. -/
def evC4 : Event := ⟨"E1", "job", some 1, [⟨[], none, [], ["S_RENT_DUE"]⟩]⟩

/-- A base configuration for the concrete runs: no passive recovery, no
inflation or wage growth, unit multipliers, rent 100, hard money threshold
0, starting money −5 (below the threshold), healthy vitals, one month of
one turn. -/
def cfgBase : Config :=
  ⟨0, 0, 0, 0, 0, 0, 0, 100, 1, 1, 1, 0, 0, 1, 0, 5, 2, 1, 1, -5, 50, 10, 50, 50⟩

/-- `cfgBase` with a collections threshold of 1: the run fails at its very
first termination check. -/
def cfgFail : Config := { cfgBase with collections_strikes := 1 }

/-- `cfgBase` with starting money 50 and a collections threshold of 3. -/
def cfgC4 : Config := { cfgBase with start_money := 50, collections_strikes := 3 }

/-- `cfgBase` with a positive-money multiplier of 1.2. -/
def cfgC5 : Config := { cfgBase with pos_money_mult := 6/5 }

/-- Stats fixture for the scaling comparison. -/
def sW : Stats := ⟨0, 50, 10, 50, 50⟩

/-- An active-conditions map with only the high-interest loan. -/
def activeHIL : List (String × Option ℤ) := [("S_HIGH_INTEREST_LOAN", none)]


/-- Spec-side: the running cumulative sums of a weight list, starting from
`acc`. -/
def cumFrom : ℚ → List ℚ → List ℚ
  | _, [] => []
  | acc, w :: ws => (acc + w) :: cumFrom (acc + w) ws

/-- Spec-side: the cumulative weights of a weight list. -/
def cumWeights (ws : List ℚ) : List ℚ := cumFrom 0 ws

/-- Spec-side: the first index whose value is ≥ `r`. -/
def firstIdxGe (r : ℚ) : List ℚ → Option ℕ
  | [] => none
  | c :: cs => if r ≤ c then some 0 else (firstIdxGe r cs).map (· + 1)

/-- Spec-side statement of the weighted choice: the candidate at the first
index whose cumulative weight is ≥ the draw value times the total weight,
the last candidate if there is no such index. -/
def weighted_choice_spec {α : Type} (items : List α) (weights : List ℚ)
    (u : ℚ) : Option α :=
  match firstIdxGe (u * weights.sum) (cumWeights weights) with
  | some i => items.get? i
  | none => items.getLast?

/-- Spec-side: a clamped attribute value is in bounds. -/
abbrev inBounds (x : ℚ) : Prop := 0 ≤ x ∧ x ≤ 100

/-- Spec-side: all four clamped attributes are in bounds. -/
abbrev statsBounded (s : Stats) : Prop :=
  inBounds s.health ∧ inBounds s.stress ∧ inBounds s.family ∧ inBounds s.friendship

/-- Spec-side: the raw sum of the money deltas of an effects dict. -/
abbrev moneyDeltaSum (eff : List (String × ℚ)) : ℚ :=
  ((eff.filter (fun p => p.1 == "money")).map Prod.snd).sum

/-- Spec-side: the effects dict carries a delta for the given key. -/
abbrev touches (eff : List (String × ℚ)) (k : String) : Prop :=
  ∃ p ∈ eff, p.1 = k

/-- Spec-side invariant for the rent cycle: a rent-due condition is active,
installed with no countdown. -/
abbrev RentDueInv (active : List (String × Option ℤ)) : Prop :=
  alook active "S_RENT_DUE" = some none

/-- `cfgBase` with recency window 41 (larger than the kept history),
penalty 1/2. -/
def cfgC8 : Config := { cfgBase with recent_window := 41, recent_penalty := 1/2 }

/-- The run state produced by Setup for the one-event fixtures. -/
def st0W : RunState :=
  ⟨⟨-5, 50, 10, 50, 50⟩, [("S_RENT_DUE", none), ("S_PAYCHECK", none)], 0,
   [], [], [], gZero⟩

/-- The run state of the fixtures after the first turn of month 0. -/
def st1W : RunState :=
  ⟨⟨-5, 50, 10, 50, 50⟩, [("S_RENT_DUE", none), ("S_PAYCHECK", none)], 0,
   [("E1", 1)], ["E1"], [("E1", 1)], ⟨gZero.stream, 3⟩⟩

theorem cumFrom_length (ws : List ℚ) : ∀ acc, (cumFrom acc ws).length = ws.length := by
  induction ws with
  | nil => intro acc; rfl
  | cons w t ih => intro acc; simp [cumFrom, ih]

theorem firstIdxGe_lt (r : ℚ) :
    ∀ (l : List ℚ) (i : ℕ), firstIdxGe r l = some i → i < l.length := by
  intro l
  induction l with
  | nil => intro i h; simp [firstIdxGe] at h
  | cons c cs ih =>
    intro i h
    simp only [firstIdxGe] at h
    by_cases hr : r ≤ c
    · rw [if_pos hr] at h
      cases h
      simp
    · rw [if_neg hr] at h
      rcases Option.map_eq_some'.mp h with ⟨j, hj, hji⟩
      have := ih j hj
      simp only [List.length_cons]
      omega

theorem wcGo_eq {α : Type} :
    ∀ (items : List α) (ws : List ℚ) (r acc : ℚ), items.length = ws.length →
      wcGo (items.zip ws) r acc = (firstIdxGe r (cumFrom acc ws)).bind items.get? := by
  intro items
  induction items with
  | nil =>
    intro ws r acc h
    cases ws with
    | nil => rfl
    | cons w t => simp at h
  | cons i is ih =>
    intro ws r acc h
    cases ws with
    | nil => simp at h
    | cons w ws' =>
      simp only [List.zip_cons_cons, wcGo, cumFrom, firstIdxGe]
      by_cases hr : r ≤ acc + w
      · simp [hr]
      · rw [if_neg hr, if_neg hr]
        rw [show List.zipWith Prod.mk is ws' = is.zip ws' from rfl]
        rw [ih ws' r (acc + w) (by simpa using h)]
        cases hfi : firstIdxGe r (cumFrom (acc + w) ws') with
        | none => simp [hfi]
        | some j => simp [hfi]

/-- C1: the weighted-choice operation returns the first candidate in
iteration order whose cumulative weight is ≥ the draw value times the total
weight, with the last candidate as fallback when no cumulative prefix
qualifies; an all-zero-weight pool however yields the FIRST candidate (the
draw value is 0 and the first cumulative weight, 0, already qualifies), not
the last. -/
theorem C1_weighted_choice_characterization {α : Type} (items : List α)
    (ws : List ℚ) (u : ℚ) (hlen : items.length = ws.length) :
    weighted_choice items ws u = weighted_choice_spec items ws u ∧
    ((∀ w ∈ ws, w = 0) → weighted_choice items ws u = items.head?) := by
  constructor
  · unfold weighted_choice weighted_choice_spec
    simp only [cumWeights]
    rw [wcGo_eq items ws _ 0 hlen]
    cases hfi : firstIdxGe (u * ws.sum) (cumFrom 0 ws) with
    | none => simp
    | some i =>
      have hi : i < ws.length := by
        have := firstIdxGe_lt _ _ _ hfi
        rwa [cumFrom_length] at this
      have hi' : i < items.length := by omega
      have hx : items[i]? = some items[i] := List.getElem?_eq_getElem hi'
      simp [hx]
  · intro hz
    cases items with
    | nil =>
      cases ws with
      | nil => rfl
      | cons w t => simp at hlen
    | cons i is =>
      cases ws with
      | nil => simp at hlen
      | cons w ws' =>
        have hw : w = 0 := hz w (by simp)
        have hsum : (w :: ws').sum = 0 := List.sum_eq_zero hz
        unfold weighted_choice
        rw [hsum, mul_zero]
        simp [wcGo, hw]

/-- C1 counterexample: on the all-zero-weight pool `[0, 1]` with draw 0 the
operation returns the first candidate `0`, while the last candidate (the
claimed fallback) is `1`. -/
theorem C1_counterexample :
    weighted_choice [0, 1] [(0:ℚ), 0] 0 = some 0 ∧
      ([0, 1] : List ℕ).getLast? = some 1 := by decide

/-- C1 witness: the characterization applied to a concrete all-zero pool. -/
theorem C1_witness :
    weighted_choice [5, 6] [(0:ℚ), 0] 0 = weighted_choice_spec [5, 6] [(0:ℚ), 0] 0 ∧
    ((∀ w ∈ [(0:ℚ), 0], w = 0) → weighted_choice [5, 6] [(0:ℚ), 0] 0 = ([5, 6] : List ℕ).head?) :=
  C1_weighted_choice_characterization [5, 6] [(0:ℚ), 0] 0 (by decide)

theorem floor_le_pythonRound (q : ℚ) : ⌊q⌋ ≤ pythonRound q := by
  unfold pythonRound
  split_ifs <;> omega

theorem pythonRound_le_ceil (q : ℚ) : pythonRound q ≤ ⌈q⌉ := by
  unfold pythonRound
  split_ifs with h1 h2 h3
  · exact Int.floor_le_ceil q
  · have hq : (⌊q⌋ : ℚ) < q := by linarith
    have := Int.lt_ceil.mpr hq
    omega
  · exact Int.floor_le_ceil q
  · have hq : (⌊q⌋ : ℚ) < q := by linarith
    have := Int.lt_ceil.mpr hq
    omega

theorem le_pythonRound_of_le (n : ℤ) (q : ℚ) (h : (n:ℚ) ≤ q) : n ≤ pythonRound q :=
  le_trans (Int.le_floor.mpr h) (floor_le_pythonRound q)

theorem pythonRound_le_of_le (n : ℤ) (q : ℚ) (h : q ≤ (n:ℚ)) : pythonRound q ≤ n :=
  le_trans (pythonRound_le_ceil q) (Int.ceil_le.mpr h)

theorem clampRound_inBounds (x : ℚ) :
    inBounds ((pythonRound (clamp x 0 100) : ℤ) : ℚ) := by
  have h0 : (0:ℚ) ≤ clamp x 0 100 := le_max_left _ _
  have h1 : clamp x 0 100 ≤ 100 := max_le (by norm_num) (min_le_left _ _)
  constructor
  · exact_mod_cast le_pythonRound_of_le 0 _ (by exact_mod_cast h0)
  · exact_mod_cast pythonRound_le_of_le 100 _ (by exact_mod_cast h1)

theorem apply_effects_cons (s : Stats) (p : String × ℚ) (t : List (String × ℚ)) :
    apply_effects s (p :: t) = apply_effects (applyEffect1 s p.1 p.2) t := rfl

theorem applyEffect1_money (s : Stats) (k : String) (v : ℚ) :
    (applyEffect1 s k v).money = if k = "money" then s.money + v else s.money := by
  unfold applyEffect1
  split_ifs <;> rfl

theorem applyEffect1_health (s : Stats) (k : String) (v : ℚ) :
    (applyEffect1 s k v).health =
      if k = "health" then ((pythonRound (clamp (s.health + v) 0 100) : ℤ) : ℚ)
      else s.health := by
  unfold applyEffect1
  split_ifs with h1 h2 <;> first | rfl | (exfalso; simp_all) | rfl

theorem applyEffect1_stress (s : Stats) (k : String) (v : ℚ) :
    (applyEffect1 s k v).stress =
      if k = "stress" then ((pythonRound (clamp (s.stress + v) 0 100) : ℤ) : ℚ)
      else s.stress := by
  unfold applyEffect1
  split_ifs with h1 h2 <;> first | rfl | (exfalso; simp_all) | rfl

theorem applyEffect1_family (s : Stats) (k : String) (v : ℚ) :
    (applyEffect1 s k v).family =
      if k = "family" then ((pythonRound (clamp (s.family + v) 0 100) : ℤ) : ℚ)
      else s.family := by
  unfold applyEffect1
  split_ifs with h1 h2 <;> first | rfl | (exfalso; simp_all) | rfl

theorem applyEffect1_friendship (s : Stats) (k : String) (v : ℚ) :
    (applyEffect1 s k v).friendship =
      if k = "friendship" then ((pythonRound (clamp (s.friendship + v) 0 100) : ℤ) : ℚ)
      else s.friendship := by
  unfold applyEffect1
  split_ifs with h1 h2 <;> first | rfl | (exfalso; simp_all) | rfl

theorem apply_effects_health_bounded (eff : List (String × ℚ)) :
    ∀ s : Stats, inBounds s.health → inBounds (apply_effects s eff).health := by
  induction eff with
  | nil => intro s h; exact h
  | cons p t ih =>
    intro s h
    rw [apply_effects_cons]
    apply ih
    rw [applyEffect1_health]
    by_cases hk : p.1 = "health"
    · rw [if_pos hk]; exact clampRound_inBounds _
    · rw [if_neg hk]; exact h

theorem apply_effects_stress_bounded (eff : List (String × ℚ)) :
    ∀ s : Stats, inBounds s.stress → inBounds (apply_effects s eff).stress := by
  induction eff with
  | nil => intro s h; exact h
  | cons p t ih =>
    intro s h
    rw [apply_effects_cons]
    apply ih
    rw [applyEffect1_stress]
    by_cases hk : p.1 = "stress"
    · rw [if_pos hk]; exact clampRound_inBounds _
    · rw [if_neg hk]; exact h

theorem apply_effects_family_bounded (eff : List (String × ℚ)) :
    ∀ s : Stats, inBounds s.family → inBounds (apply_effects s eff).family := by
  induction eff with
  | nil => intro s h; exact h
  | cons p t ih =>
    intro s h
    rw [apply_effects_cons]
    apply ih
    rw [applyEffect1_family]
    by_cases hk : p.1 = "family"
    · rw [if_pos hk]; exact clampRound_inBounds _
    · rw [if_neg hk]; exact h

theorem apply_effects_friendship_bounded (eff : List (String × ℚ)) :
    ∀ s : Stats, inBounds s.friendship → inBounds (apply_effects s eff).friendship := by
  induction eff with
  | nil => intro s h; exact h
  | cons p t ih =>
    intro s h
    rw [apply_effects_cons]
    apply ih
    rw [applyEffect1_friendship]
    by_cases hk : p.1 = "friendship"
    · rw [if_pos hk]; exact clampRound_inBounds _
    · rw [if_neg hk]; exact h

theorem apply_effects_money_eq (eff : List (String × ℚ)) :
    ∀ s : Stats, (apply_effects s eff).money = s.money + moneyDeltaSum eff := by
  induction eff with
  | nil => intro s; simp [apply_effects, moneyDeltaSum]
  | cons p t ih =>
    intro s
    rw [apply_effects_cons, ih, applyEffect1_money]
    by_cases hk : p.1 = "money"
    · rw [if_pos hk]
      simp [moneyDeltaSum, List.filter_cons, hk]
      ring
    · rw [if_neg hk]
      simp [moneyDeltaSum, List.filter_cons, hk]

theorem apply_effects_health_touched (eff : List (String × ℚ)) :
    ∀ s : Stats, touches eff "health" → inBounds (apply_effects s eff).health := by
  induction eff with
  | nil => intro s h; rcases h with ⟨p, hp, _⟩; simp at hp
  | cons p t ih =>
    intro s h
    rw [apply_effects_cons]
    by_cases hk : p.1 = "health"
    · apply apply_effects_health_bounded
      rw [applyEffect1_health, if_pos hk]
      exact clampRound_inBounds _
    · rcases h with ⟨q, hq, hq1⟩
      rcases List.mem_cons.mp hq with rfl | hmem
      · exact absurd hq1 hk
      · exact ih _ ⟨q, hmem, hq1⟩

theorem apply_effects_stress_touched (eff : List (String × ℚ)) :
    ∀ s : Stats, touches eff "stress" → inBounds (apply_effects s eff).stress := by
  induction eff with
  | nil => intro s h; rcases h with ⟨p, hp, _⟩; simp at hp
  | cons p t ih =>
    intro s h
    rw [apply_effects_cons]
    by_cases hk : p.1 = "stress"
    · apply apply_effects_stress_bounded
      rw [applyEffect1_stress, if_pos hk]
      exact clampRound_inBounds _
    · rcases h with ⟨q, hq, hq1⟩
      rcases List.mem_cons.mp hq with rfl | hmem
      · exact absurd hq1 hk
      · exact ih _ ⟨q, hmem, hq1⟩

theorem apply_effects_family_touched (eff : List (String × ℚ)) :
    ∀ s : Stats, touches eff "family" → inBounds (apply_effects s eff).family := by
  induction eff with
  | nil => intro s h; rcases h with ⟨p, hp, _⟩; simp at hp
  | cons p t ih =>
    intro s h
    rw [apply_effects_cons]
    by_cases hk : p.1 = "family"
    · apply apply_effects_family_bounded
      rw [applyEffect1_family, if_pos hk]
      exact clampRound_inBounds _
    · rcases h with ⟨q, hq, hq1⟩
      rcases List.mem_cons.mp hq with rfl | hmem
      · exact absurd hq1 hk
      · exact ih _ ⟨q, hmem, hq1⟩

theorem apply_effects_friendship_touched (eff : List (String × ℚ)) :
    ∀ s : Stats, touches eff "friendship" → inBounds (apply_effects s eff).friendship := by
  induction eff with
  | nil => intro s h; rcases h with ⟨p, hp, _⟩; simp at hp
  | cons p t ih =>
    intro s h
    rw [apply_effects_cons]
    by_cases hk : p.1 = "friendship"
    · apply apply_effects_friendship_bounded
      rw [applyEffect1_friendship, if_pos hk]
      exact clampRound_inBounds _
    · rcases h with ⟨q, hq, hq1⟩
      rcases List.mem_cons.mp hq with rfl | hmem
      · exact absurd hq1 hk
      · exact ih _ ⟨q, hmem, hq1⟩

/-- C2 (amended): a single apply-effects call keeps every clamped attribute
in [0,100] provided it started in [0,100], and unconditionally clamps every
attribute that receives a delta; an attribute absent from the effects
mapping keeps its prior value, so an out-of-range starting value it does
not touch is not repaired.  Money is never clamped: the new money is
exactly the old plus the raw sum of the money deltas, hence it may go
negative. -/
theorem C2_apply_effects_clamping (s : Stats) (eff : List (String × ℚ)) :
    (statsBounded s → statsBounded (apply_effects s eff)) ∧
    (apply_effects s eff).money = s.money + moneyDeltaSum eff ∧
    (touches eff "health" → inBounds (apply_effects s eff).health) ∧
    (touches eff "stress" → inBounds (apply_effects s eff).stress) ∧
    (touches eff "family" → inBounds (apply_effects s eff).family) ∧
    (touches eff "friendship" → inBounds (apply_effects s eff).friendship) := by
  refine ⟨fun hb => ⟨?_, ?_, ?_, ?_⟩, apply_effects_money_eq eff s, ?_, ?_, ?_, ?_⟩
  · exact apply_effects_health_bounded eff s hb.1
  · exact apply_effects_stress_bounded eff s hb.2.1
  · exact apply_effects_family_bounded eff s hb.2.2.1
  · exact apply_effects_friendship_bounded eff s hb.2.2.2
  · exact apply_effects_health_touched eff s
  · exact apply_effects_stress_touched eff s
  · exact apply_effects_family_touched eff s
  · exact apply_effects_friendship_touched eff s

/-- C2 counterexample: with a stats mapping whose health is 200 and an
effects mapping that does not touch health, the call returns with health
still 200, outside [0,100] — the claim's quantification over every stats
mapping fails. -/
theorem C2_counterexample :
    (apply_effects ⟨0, 200, 0, 0, 0⟩ [("money", 1)]).health = 200 ∧
      ¬ statsBounded (apply_effects ⟨0, 200, 0, 0, 0⟩ [("money", 1)]) := by decide

/-- C2 witness: a huge positive health delta and a negative money delta on
bounded stats — the clamped attributes stay in [0,100] and money goes
negative, unclamped. -/
theorem C2_witness :
    statsBounded (apply_effects sW [("health", 1000), ("money", -7)]) ∧
    (apply_effects sW [("health", 1000), ("money", -7)]).money =
      sW.money + moneyDeltaSum [("health", 1000), ("money", -7)] ∧
    inBounds (apply_effects sW [("health", 1000), ("money", -7)]).health :=
  ⟨(C2_apply_effects_clamping sW _).1 (by decide),
   (C2_apply_effects_clamping sW _).2.1,
   (C2_apply_effects_clamping sW _).2.2.1 (by decide)⟩

/-- C9: a full run is a function of the catalog, registry, configuration
and the seeded uniform stream alone — two executions over pointwise-equal
streams return the same outcome, the same count of distinct events and the
same per-event trigger counts. -/
theorem C9_determinism (events : List Event) (states : List StateDef)
    (cfg : Config) (ro : RealOps) (f₁ f₂ : ℕ → ℚ) (i : ℕ)
    (h : ∀ n, f₁ n = f₂ n) :
    simulate_one events states cfg ro ⟨f₁, i⟩ =
      simulate_one events states cfg ro ⟨f₂, i⟩ := by
  have hf : f₁ = f₂ := funext h
  rw [hf]

/-- C9 witness: the same concrete run under two syntactically different but
pointwise-equal streams. -/
theorem C9_witness :
    simulate_one [evW] stsW cfgBase roOne ⟨fun _ => 0, 0⟩ =
      simulate_one [evW] stsW cfgBase roOne ⟨fun n => 0 * (n:ℚ), 0⟩ :=
  C9_determinism [evW] stsW cfgBase roOne _ _ 0 (fun n => (zero_mul _).symm)

/-- C10: one termination evaluation returns between 0 and 3 strikes; the
vital-stat signals form a single group, so two stats mappings with the same
money and any (possibly different, possibly multiple) vital breaches score
the same strike count. -/
theorem C10_fatal_strikes_grouping :
    (∀ (s : Stats) (active : List (String × Option ℤ)) (arrears : ℤ) (cfg : Config),
        fatal_strikes s active arrears cfg ≤ 3) ∧
    (∀ (s₁ s₂ : Stats) (active : List (String × Option ℤ)) (arrears : ℤ) (cfg : Config),
        s₁.money = s₂.money → vitalBreach s₁ → vitalBreach s₂ →
        fatal_strikes s₁ active arrears cfg = fatal_strikes s₂ active arrears cfg) := by
  constructor
  · intro s a c cfg
    unfold fatal_strikes
    split_ifs <;> omega
  · intro s₁ s₂ a c cfg hm h1 h2
    unfold fatal_strikes
    rw [if_pos h1, if_pos h2]
    unfold moneyBreach
    rw [hm]

/-- C10 witness: all four vitals breached at once scores the same single
vital strike as stress alone breached, and the count is ≤ 3. -/
theorem C10_witness :
    fatal_strikes ⟨0, 0, 100, 0, 0⟩ [] 0 cfgBase ≤ 3 ∧
    fatal_strikes ⟨0, 0, 100, 0, 0⟩ [] 0 cfgBase =
      fatal_strikes ⟨0, 50, 100, 50, 50⟩ [] 0 cfgBase :=
  ⟨C10_fatal_strikes_grouping.1 _ _ _ _,
   C10_fatal_strikes_grouping.2 _ _ _ _ _ rfl (by decide) (by decide)⟩

theorem choiceVal_eq_monthlyVal (ro : RealOps) (cfg : Config) (month : ℕ)
    (s : Stats) (active : List (String × Option ℤ)) (k : String) (v : ℚ)
    (h : ¬(k = "money" ∧ 0 < v ∧ ahas active "S_HIGH_INTEREST_LOAN" = true)) :
    choiceVal ro cfg month s active k v = monthlyVal ro cfg month s active k v := by
  unfold choiceVal monthlyVal
  by_cases hvit : (k = "health" ∨ k = "family" ∨ k = "friendship") ∧ 0 < v
  · rw [if_pos hvit, if_pos hvit]
  · rw [if_neg hvit, if_neg hvit]
    by_cases hk : k = "money"
    · rw [if_pos hk, if_pos hk]
      by_cases hpos : 0 < v
      · have hnh : ahas active "S_HIGH_INTEREST_LOAN" = false := by
          rcases Bool.eq_false_or_eq_true (ahas active "S_HIGH_INTEREST_LOAN") with ht | hf
          · exact absurd ⟨hk, hpos, ht⟩ h
          · exact hf
        simp [hpos, hnh]
      · simp [hpos]
    · rw [if_neg hk, if_neg hk]

/-- C5 (amended): the effective scaled delta of an immediate choice effect
and of a condition's recurring monthly effect agree for every attribute and
sign — the same diminishing-returns scaling, the same money multipliers
with wage/cost factors, the same stress multiplier — EXCEPT for a positive
money delta while a high-interest loan is active: the choice path rounds
once (after the ×0.85 penalty), the monthly path rounds the penalised value
to an integer first and rounds again after the positive multiplier, so the
two paths can differ by double rounding. -/
theorem C5_choice_monthly_scaling_agree (ro : RealOps) (cfg : Config)
    (month : ℕ) (s : Stats) (active : List (String × Option ℤ))
    (eff : List (String × ℚ))
    (h : ∀ p ∈ eff, ¬(p.1 = "money" ∧ 0 < p.2 ∧ ahas active "S_HIGH_INTEREST_LOAN" = true)) :
    choiceTransform ro cfg month s active eff =
      monthlyTransform ro cfg month s active eff := by
  unfold choiceTransform monthlyTransform
  apply List.map_congr_left
  intro p hp
  rw [choiceVal_eq_monthlyVal ro cfg month s active p.1 p.2 (h p hp)]

/-- C5 counterexample: a +25 money delta with the high-interest loan
active, a positive-money multiplier 1.2 and unit wage factor scales to 26
on the choice path (round(25·1.2·0.85) = round(25.5) = 26) but to 25 on the
monthly path (round(round(25·0.85))·1.2) = round(25.2) = 25). -/
theorem C5_counterexample :
    choiceTransform roOne cfgC5 0 sW activeHIL [("money", 25)] = [("money", 26)] ∧
    monthlyTransform roOne cfgC5 0 sW activeHIL [("money", 25)] = [("money", 25)] := by
  decide

/-- C5 witness: a mixed effects dict with no positive money under an active
loan scales identically on both paths. -/
theorem C5_witness :
    choiceTransform roOne cfgC5 0 sW activeHIL
        [("money", -25), ("stress", 3), ("health", -2), ("family", 9)] =
      monthlyTransform roOne cfgC5 0 sW activeHIL
        [("money", -25), ("stress", 3), ("health", -2), ("family", 9)] :=
  C5_choice_monthly_scaling_agree roOne cfgC5 0 sW activeHIL _ (by decide)

theorem lastN_lastN {α : Type} (l : List α) (m n : ℕ) :
    lastN (lastN l m) n = lastN l (min n m) := by
  unfold lastN
  rw [List.length_drop, List.drop_drop]
  congr 1
  omega

theorem pushRecent_lastN (l : List String) (x : String) :
    pushRecent (lastN l 40) x = lastN (l ++ [x]) 40 := by
  unfold pushRecent lastN
  by_cases h : 40 ≤ l.length
  · have hA : (l.drop (l.length - 40)).length = 40 := by
      rw [List.length_drop]; omega
    have hcond : 40 < (l.drop (l.length - 40) ++ [x]).length := by
      rw [List.length_append, hA]; simp
    rw [if_pos hcond]
    rw [List.length_append, hA]
    rw [List.drop_append_eq_append_drop, List.drop_drop, hA]
    rw [List.drop_append_eq_append_drop]
    rw [List.length_append]
    congr 2 <;> simp <;> omega
  · have hc : ¬ 40 < (l.drop (l.length - 40) ++ [x]).length := by
      rw [List.length_append, List.length_drop]; simp; omega
    rw [if_neg hc]
    rw [Nat.sub_eq_zero_of_le (by omega), List.drop_zero]
    rw [List.length_append]
    rw [show l.length + [x].length - 40 = 0 from by simp; omega, List.drop_zero]

theorem histRecent_eq (hist : List String) :
    List.foldl pushRecent [] hist = lastN hist 40 := by
  induction hist using List.reverseRecOn with
  | nil => rfl
  | append_singleton l x ih =>
    rw [List.foldl_append, List.foldl_cons, List.foldl_nil, ih, pushRecent_lastN]

/-- C8 (amended): a candidate's weight `base_weight / (1 + seen)^beta` is
multiplied by the recency penalty exactly when the event id appears among
the last `min(N, 40)` drawn ids of the run — the run retains only the 40
most recent draw ids, so for windows N ≤ 40 the penalty tracks the last N
drawn ids exactly, while for N > 40 ids drawn more than 40 draws ago escape
the penalty. -/
theorem C8_recency_window (ro : RealOps) (cfg : Config)
    (seen : List (String × ℕ)) (hist recent : List String) (ev : Event)
    (hrec : recent = List.foldl pushRecent [] hist) :
    eventWeight ro cfg seen recent ev =
      (if ev.id ∈ lastN hist (min cfg.recent_window 40) then
        ev.base_weight.getD 1 /
            ro.pow (1 + (((alook seen ev.id).getD 0 : ℕ) : ℚ)) cfg.anti_repeat_beta *
          cfg.recent_penalty
      else
        ev.base_weight.getD 1 /
          ro.pow (1 + (((alook seen ev.id).getD 0 : ℕ) : ℚ)) cfg.anti_repeat_beta) := by
  subst hrec
  rw [histRecent_eq]
  unfold eventWeight
  by_cases hw : 0 < cfg.recent_window
  · rw [if_pos hw, lastN_lastN]
  · rw [if_neg hw]
    have h0 : cfg.recent_window = 0 := by omega
    rw [h0]
    simp [lastN, List.drop_length]

set_option maxRecDepth 8000 in
/-- C8 counterexample: with window N = 41 and a 41-draw history whose
oldest id is "A", the run's bounded recent list has dropped "A", so the
weight of event "A" is left unpenalised (weight 1) even though "A" is among
the last 41 drawn ids and the penalty factor 1/2 would have changed it. -/
theorem C8_counterexample :
    eventWeight roOne cfgC8 []
        (List.foldl pushRecent [] ("A" :: List.replicate 40 "B"))
        ⟨"A", "job", some 1, []⟩ = 1 ∧
    "A" ∈ lastN ("A" :: List.replicate 40 "B") 41 ∧
    (1 : ℚ) * cfgC8.recent_penalty ≠ 1 := by decide

/-- C8 witness: the amended characterization evaluated on a 3-draw history
with window 2 — the penalty applies exactly to the ids of the last two
draws. -/
theorem C8_witness :
    eventWeight roOne { cfgBase with recent_window := 2, recent_penalty := 1/2 } []
        (List.foldl pushRecent [] ["A", "B", "C"]) ⟨"B", "job", some 1, []⟩ =
      (if "B" ∈ lastN ["A", "B", "C"]
            (min ({ cfgBase with recent_window := 2, recent_penalty := 1/2 } : Config).recent_window 40) then
        (⟨"B", "job", some 1, []⟩ : Event).base_weight.getD 1 /
            roOne.pow (1 + (((alook [] "B").getD 0 : ℕ) : ℚ))
              ({ cfgBase with recent_window := 2, recent_penalty := 1/2 } : Config).anti_repeat_beta *
          ({ cfgBase with recent_window := 2, recent_penalty := 1/2 } : Config).recent_penalty
      else
        (⟨"B", "job", some 1, []⟩ : Event).base_weight.getD 1 /
          roOne.pow (1 + (((alook [] "B").getD 0 : ℕ) : ℚ))
            ({ cfgBase with recent_window := 2, recent_penalty := 1/2 } : Config).anti_repeat_beta) :=
  C8_recency_window roOne _ [] ["A", "B", "C"] _ ⟨"B", "job", some 1, []⟩ rfl

theorem turnsLoop_eq (env : Env) (m : ℕ) :
    ∀ (n : ℕ) (st : RunState),
      turnsLoop env m n st = (turnsLoopI env m n st).map Prod.fst := by
  intro n
  induction n with
  | zero => intro st; rfl
  | succ n ih =>
    intro st
    simp only [turnsLoop, turnsLoopI]
    cases hrt : runTurn env m st with
    | none => rfl
    | some st1 =>
      dsimp only
      by_cases hk : env.cfg.collections_strikes ≤
          fatal_strikes st1.stats st1.active st1.arrears env.cfg
      · rw [if_pos hk, if_pos hk]; rfl
      · rw [if_neg hk, if_neg hk, ih st1]
        cases hti : turnsLoopI env m n st1 with
        | none => rfl
        | some rt => obtain ⟨r, tr⟩ := rt; rfl

theorem monthsLoop_eq (env : Env) :
    ∀ (n m : ℕ) (st : RunState),
      monthsLoop env m n st = (monthsLoopI env m n st).map Prod.fst := by
  intro n
  induction n with
  | zero => intro m st; rfl
  | succ n ih =>
    intro m st
    simp only [monthsLoop, monthsLoopI]
    cases hasm : apply_state_monthly env m (monthly_passive env.ro env.cfg st.stats)
        st.active st.arrears with
    | none => rfl
    | some t =>
      obtain ⟨s2, a2, c2⟩ := t
      dsimp only
      rw [turnsLoop_eq]
      cases hti : turnsLoopI env m env.cfg.turns_per_month
          ⟨s2, a2, c2, st.seen, st.recent, st.counts, st.rng⟩ with
      | none => rfl
      | some rt =>
        obtain ⟨r, tr⟩ := rt
        cases r with
        | inr rr => rfl
        | inl st3 =>
          simp only [Option.map_some']
          cases hme : month_end_rent env m st3.stats st3.active with
          | none => rfl
          | some p =>
            obtain ⟨s4, a4⟩ := p
            dsimp only
            by_cases hk : env.cfg.collections_strikes ≤
                fatal_strikes s4 a4 st3.arrears env.cfg
            · rw [if_pos hk, if_pos hk]; rfl
            · rw [if_neg hk, if_neg hk, ih]
              cases hmi : monthsLoopI env (m + 1) n
                  ⟨s4, a4, st3.arrears, st3.seen, st3.recent, st3.counts, st3.rng⟩ with
              | none => rfl
              | some q => obtain ⟨out, tr2, fl2⟩ := q; rfl

theorem simulate_one_eq_simulateI (events : List Event) (states : List StateDef)
    (cfg : Config) (ro : RealOps) (g : RNG) :
    simulate_one events states cfg ro g =
      (simulateI events states cfg ro g).map Prod.fst := by
  unfold simulate_one simulateI
  cases initState events states cfg ro g with
  | none => rfl
  | some st0 => exact monthsLoop_eq _ _ _ _

theorem turnsLoopI_trace (env : Env) (m : ℕ) :
    ∀ (n : ℕ) (st : RunState) (r : RunState ⊕ RunRes) (tr : List ℕ),
      turnsLoopI env m n st = some (r, tr) →
      ((∃ st2, r = Sum.inl st2) →
        (∀ k ∈ tr, k < env.cfg.collections_strikes) ∧ tr.length = n) ∧
      ((∃ rr, r = Sum.inr rr) →
        ∃ pre klast, tr = pre ++ [klast] ∧
          (∀ k ∈ pre, k < env.cfg.collections_strikes) ∧
          env.cfg.collections_strikes ≤ klast) := by
  intro n
  induction n with
  | zero =>
    intro st r tr h
    simp only [turnsLoopI, Option.some.injEq, Prod.mk.injEq] at h
    obtain ⟨hr, htr⟩ := h
    subst hr
    subst htr
    constructor
    · intro _; exact ⟨by simp, rfl⟩
    · rintro ⟨rr, hrr⟩; exact absurd hrr (by simp)
  | succ n ih =>
    intro st r tr h
    simp only [turnsLoopI] at h
    cases hrt : runTurn env m st with
    | none => rw [hrt] at h; cases h
    | some st1 =>
      rw [hrt] at h
      dsimp only at h
      by_cases hk : env.cfg.collections_strikes ≤
          fatal_strikes st1.stats st1.active st1.arrears env.cfg
      · rw [if_pos hk] at h
        simp only [Option.some.injEq, Prod.mk.injEq] at h
        obtain ⟨hr, htr⟩ := h
        subst hr
        subst htr
        constructor
        · rintro ⟨st2, hst2⟩; exact absurd hst2 (by simp)
        · intro _
          exact ⟨[], fatal_strikes st1.stats st1.active st1.arrears env.cfg,
                 by simp, by simp, hk⟩
      · rw [if_neg hk] at h
        cases hti : turnsLoopI env m n st1 with
        | none => rw [hti] at h; cases h
        | some rt =>
          obtain ⟨r1, tr1⟩ := rt
          rw [hti] at h
          dsimp only at h
          simp only [Option.some.injEq, Prod.mk.injEq] at h
          obtain ⟨hr, htr⟩ := h
          subst hr
          subst htr
          obtain ⟨IH1, IH2⟩ := ih st1 r1 tr1 hti
          constructor
          · intro hex
            obtain ⟨h1, h2⟩ := IH1 hex
            constructor
            · intro k hkmem
              rcases List.mem_cons.mp hkmem with rfl | hmem
              · omega
              · exact h1 k hmem
            · simp [h2]
          · intro hex
            obtain ⟨pre, klast, hpre, hall, hlast⟩ := IH2 hex
            refine ⟨fatal_strikes st1.stats st1.active st1.arrears env.cfg :: pre,
                    klast, by rw [hpre]; rfl, ?_, hlast⟩
            intro k hk2
            rcases List.mem_cons.mp hk2 with rfl | hm
            · omega
            · exact hall k hm

theorem monthsLoopI_trace (env : Env) :
    ∀ (n m : ℕ) (st : RunState) (out : RunOut) (tr : List ℕ) (fl : List Bool),
      monthsLoopI env m n st = some (out, tr, fl) →
      (out.1 = true → (∀ k ∈ tr, k < env.cfg.collections_strikes) ∧
        tr.length = n * (env.cfg.turns_per_month + 1)) ∧
      (out.1 = false → ∃ pre klast, tr = pre ++ [klast] ∧
        (∀ k ∈ pre, k < env.cfg.collections_strikes) ∧
        env.cfg.collections_strikes ≤ klast) := by
  intro n
  induction n with
  | zero =>
    intro m st out tr fl h
    simp only [monthsLoopI, Option.some.injEq, Prod.mk.injEq] at h
    obtain ⟨hout, htr, hfl⟩ := h
    subst hout
    subst htr
    constructor
    · intro _; exact ⟨by simp, by simp⟩
    · intro hf; exact absurd hf (by simp)
  | succ n ih =>
    intro m st out tr fl h
    simp only [monthsLoopI] at h
    cases hasm : apply_state_monthly env m (monthly_passive env.ro env.cfg st.stats)
        st.active st.arrears with
    | none => rw [hasm] at h; cases h
    | some t =>
      obtain ⟨s2, a2, c2⟩ := t
      rw [hasm] at h
      dsimp only at h
      cases hti : turnsLoopI env m env.cfg.turns_per_month
          ⟨s2, a2, c2, st.seen, st.recent, st.counts, st.rng⟩ with
      | none => rw [hti] at h; cases h
      | some rt =>
        obtain ⟨r, tr1⟩ := rt
        rw [hti] at h
        obtain ⟨T1, T2⟩ := turnsLoopI_trace env m _ _ r tr1 hti
        cases r with
        | inr rr =>
          dsimp only at h
          simp only [Option.some.injEq, Prod.mk.injEq] at h
          obtain ⟨hout, htr, hfl⟩ := h
          subst hout
          subst htr
          constructor
          · intro hf; exact absurd hf (by simp)
          · intro _; exact T2 ⟨rr, rfl⟩
        | inl st3 =>
          dsimp only at h
          obtain ⟨H1, Hlen⟩ := T1 ⟨st3, rfl⟩
          cases hme : month_end_rent env m st3.stats st3.active with
          | none => rw [hme] at h; cases h
          | some p =>
            obtain ⟨s4, a4⟩ := p
            rw [hme] at h
            dsimp only at h
            by_cases hk : env.cfg.collections_strikes ≤
                fatal_strikes s4 a4 st3.arrears env.cfg
            · rw [if_pos hk] at h
              simp only [Option.some.injEq, Prod.mk.injEq] at h
              obtain ⟨hout, htr, hfl⟩ := h
              subst hout
              subst htr
              constructor
              · intro hf; exact absurd hf (by simp)
              · intro _
                exact ⟨tr1, fatal_strikes s4 a4 st3.arrears env.cfg, rfl, H1, hk⟩
            · rw [if_neg hk] at h
              cases hmi : monthsLoopI env (m + 1) n
                  ⟨s4, a4, st3.arrears, st3.seen, st3.recent, st3.counts, st3.rng⟩ with
              | none => rw [hmi] at h; cases h
              | some q =>
                obtain ⟨out2, tr2, fl2⟩ := q
                rw [hmi] at h
                simp only [Option.some.injEq, Prod.mk.injEq] at h
                obtain ⟨hout, htr, hfl⟩ := h
                subst hout
                subst htr
                obtain ⟨M1, M2⟩ := ih (m + 1) _ out2 tr2 fl2 hmi
                constructor
                · intro htrue
                  obtain ⟨Mall, Mlen⟩ := M1 htrue
                  constructor
                  · intro k hkm
                    rcases List.mem_append.mp hkm with hm1 | hm2
                    · exact H1 k hm1
                    · rcases List.mem_cons.mp hm2 with rfl | hm3
                      · omega
                      · exact Mall k hm3
                  · rw [List.length_append, List.length_cons, Hlen, Mlen]
                    ring
                · intro hfalse
                  obtain ⟨pre, klast, hsplit, hall, hlast⟩ := M2 hfalse
                  refine ⟨tr1 ++ fatal_strikes s4 a4 st3.arrears env.cfg :: pre,
                          klast, by rw [hsplit]; simp, ?_, hlast⟩
                  intro k hkm
                  rcases List.mem_append.mp hkm with hm1 | hm2
                  · exact H1 k hm1
                  · rcases List.mem_cons.mp hm2 with rfl | hm3
                    · omega
                    · exact hall k hm3

/-- C3: every run evaluates the termination count after each event-choice
application and after each month-end rent cycle (a completed run performs
exactly `max_months * (turns_per_month + 1)` checks); independent
co-occurring signals each add a strike (all three together score 3); and a
run fails exactly when some check reaches the configured threshold, with
the failing check the last one evaluated — every earlier check was below
the threshold and nothing is simulated past it. -/
theorem C3_termination_immediacy (events : List Event) (states : List StateDef)
    (cfg : Config) (ro : RealOps) (g : RNG) (out : RunOut) (tr : List ℕ)
    (fl : List Bool)
    (h : simulateI events states cfg ro g = some (out, tr, fl)) :
    simulate_one events states cfg ro g = some out ∧
    (out.1 = true → (∀ k ∈ tr, k < cfg.collections_strikes) ∧
      tr.length = cfg.max_months * (cfg.turns_per_month + 1)) ∧
    (out.1 = false → ∃ pre klast, tr = pre ++ [klast] ∧
      (∀ k ∈ pre, k < cfg.collections_strikes) ∧
      cfg.collections_strikes ≤ klast) ∧
    (∀ (s : Stats) (active : List (String × Option ℤ)) (arrears : ℤ),
      moneyBreach cfg s → arrearsBreach cfg active arrears → vitalBreach s →
      fatal_strikes s active arrears cfg = 3) := by
  have hsim : simulate_one events states cfg ro g = some out := by
    rw [simulate_one_eq_simulateI, h]; rfl
  have htr : monthsLoopI (mkEnv events states cfg ro) 0 cfg.max_months
      (match initState events states cfg ro g with
       | none => st0W
       | some st0 => st0) = some (out, tr, fl) ∨ True := Or.inr trivial
  refine ⟨hsim, ?_, ?_, ?_⟩
  · intro ht
    unfold simulateI at h
    cases hini : initState events states cfg ro g with
    | none => rw [hini] at h; cases h
    | some st0 =>
      rw [hini] at h
      exact (monthsLoopI_trace (mkEnv events states cfg ro) cfg.max_months 0
        st0 out tr fl h).1 ht
  · intro hf
    unfold simulateI at h
    cases hini : initState events states cfg ro g with
    | none => rw [hini] at h; cases h
    | some st0 =>
      rw [hini] at h
      exact (monthsLoopI_trace (mkEnv events states cfg ro) cfg.max_months 0
        st0 out tr fl h).2 hf
  · intro s active arrears h1 h2 h3
    unfold fatal_strikes
    rw [if_pos h1, if_pos h2, if_pos h3]

/-- C3 witness: the concrete run that starts below the money threshold with
collections threshold 1 fails at its very first check. -/
theorem C3_witness :
    simulate_one [evW] stsW cfgFail roOne gZero = some (false, 1, [("E1", 1)]) :=
  (C3_termination_immediacy [evW] stsW cfgFail roOne gZero
    (false, 1, [("E1", 1)]) [1] [] (by decide)).1

theorem mkEnv_ro (events : List Event) (states : List StateDef) (cfg : Config)
    (ro : RealOps) : (mkEnv events states cfg ro).ro = ro := rfl

theorem mkEnv_cfg (events : List Event) (states : List StateDef) (cfg : Config)
    (ro : RealOps) : (mkEnv events states cfg ro).cfg = cfg := rfl

theorem alook_aset_ne {α : Type} (a : List (String × α)) (k : String) (v : α)
    (j : String) (h : j ≠ k) : alook (aset a k v) j = alook a j := by
  induction a with
  | nil => rfl
  | cons p t ih =>
    simp only [aset, List.map_cons]
    by_cases hp : p.1 = k
    · rw [if_pos hp]
      simp only [alook]
      rw [if_neg (fun hkj => h hkj.symm), if_neg (by rw [hp]; exact fun hkj => h hkj.symm)]
      simpa [aset] using ih
    · rw [if_neg hp]
      simp only [alook]
      by_cases hpj : p.1 = j
      · rw [if_pos hpj, if_pos hpj]
      · rw [if_neg hpj, if_neg hpj]
        simpa [aset] using ih

theorem alook_aset_self {α : Type} (a : List (String × α)) (k : String) (v : α) :
    alook (aset a k v) k = (alook a k).map (fun _ => v) := by
  induction a with
  | nil => rfl
  | cons p t ih =>
    simp only [aset, List.map_cons]
    by_cases hp : p.1 = k
    · rw [if_pos hp]
      simp [alook, hp]
    · rw [if_neg hp]
      simp only [alook, if_neg hp]
      simpa [aset] using ih

theorem alook_append {α : Type} (a b : List (String × α)) (j : String) :
    alook (a ++ b) j =
      match alook a j with
      | some v => some v
      | none => alook b j := by
  induction a with
  | nil => rfl
  | cons p t ih =>
    simp only [List.cons_append, alook]
    by_cases hp : p.1 = j
    · rw [if_pos hp, if_pos hp]
    · rw [if_neg hp, if_neg hp]
      exact ih

theorem alook_aerase_ne {α : Type} (a : List (String × α)) (k j : String)
    (h : j ≠ k) : alook (aerase a k) j = alook a j := by
  induction a with
  | nil => rfl
  | cons p t ih =>
    obtain ⟨k1, v⟩ := p
    simp only [aerase]
    by_cases hp : k1 = k
    · rw [if_pos hp]
      have he : alook ((k1, v) :: t) j = alook t j := by
        simp only [alook]
        rw [if_neg (by rw [hp]; exact fun e => h e.symm)]
      rw [he, ih]
    · rw [if_neg hp]
      simp only [alook]
      by_cases hpj : k1 = j
      · rw [if_pos hpj, if_pos hpj]
      · rw [if_neg hpj, if_neg hpj, ih]

theorem alook_aerase_self {α : Type} (a : List (String × α)) (k : String) :
    alook (aerase a k) k = none := by
  induction a with
  | nil => rfl
  | cons p t ih =>
    obtain ⟨k1, v⟩ := p
    simp only [aerase]
    by_cases hp : k1 = k
    · rw [if_pos hp]; exact ih
    · rw [if_neg hp]
      simp only [alook]
      rw [if_neg hp]
      exact ih

theorem build_pools_nonempty :
    ∀ (events : List Event) (tag : String) (pool : List Event),
      alook (build_pools events) tag = some pool → pool ≠ [] := by
  have main : ∀ (evs : List Event) (ps : List (String × List Event)),
      (∀ t pool, alook ps t = some pool → pool ≠ []) →
      ∀ t pool, alook (List.foldl poolAdd ps evs) t = some pool → pool ≠ [] := by
    intro evs
    induction evs with
    | nil => intro ps hps; exact hps
    | cons ev tl ih =>
      intro ps hps
      simp only [List.foldl_cons]
      apply ih
      intro t pool hlook
      unfold poolAdd at hlook
      cases hpe : alook ps ev.primary_tag with
      | some l =>
        rw [hpe] at hlook
        by_cases ht : t = ev.primary_tag
        · subst ht
          rw [alook_aset_self, hpe] at hlook
          simp only [Option.map_some', Option.some.injEq] at hlook
          subst hlook
          simp
        · rw [alook_aset_ne _ _ _ _ ht] at hlook
          exact hps t pool hlook
      | none =>
        rw [hpe] at hlook
        rw [alook_append] at hlook
        cases hpt : alook ps t with
        | some l2 =>
          rw [hpt] at hlook
          simp only [Option.some.injEq] at hlook
          subst hlook
          exact hps t l2 hpt
        | none =>
          rw [hpt] at hlook
          simp only [alook] at hlook
          by_cases he : ev.primary_tag = t
          · rw [if_pos he] at hlook
            simp only [Option.some.injEq] at hlook
            subst hlook
            simp
          · rw [if_neg he] at hlook
            cases hlook
  intro events tag pool h
  exact main events [] (by intro t pool h2; cases h2) tag pool h

/-- C7 (amended): the program performs no startup validation of event
pools — `build_pools` merely groups the catalog (a tag with no events gets
no entry at all, and every entry it creates is nonempty); when the
tag-weighted first draw stage selects a tag with no pool entry, the draw
step itself is reached and fails there (a lookup error at draw time, not
at startup). -/
theorem C7_empty_pool_draw_error (env : Env)
    (active : List (String × Option ℤ)) (seen : List (String × ℕ))
    (recent : List String) (g : RNG) (t : String)
    (htag : weighted_choice ((tag_weights active env.stm).map Prod.fst)
      ((tag_weights active env.stm).map Prod.snd) (g.next.1) = some t)
    (hpool : alook env.pools t = none) :
    draw_event env active seen recent g = none ∧
    (∀ (events : List Event) (tag : String) (pool : List Event),
      alook (build_pools events) tag = some pool → pool ≠ []) := by
  constructor
  · unfold draw_event
    simp [htag, hpool]
  · exact build_pools_nonempty

/-- C7 counterexample: with an empty event catalog, Setup succeeds and
`build_pools` returns normally with no pools (no fail-fast validation);
the full run then errors at the first draw, not at startup. -/
theorem C7_counterexample :
    (initState [] stsW cfgFail roOne gZero).isSome = true ∧
    build_pools ([] : List Event) = [] ∧
    simulate_one [] stsW cfgFail roOne gZero = none := by decide

/-- C7 witness: the draw step is reached and fails for the selected tag
"job" whose pool is missing, while pools built from a nonempty catalog have
no empty entries. -/
theorem C7_witness :
    draw_event (mkEnv [] stsW cfgFail roOne) [] [] [] gZero = none ∧
    [evW] ≠ [] :=
  ⟨(C7_empty_pool_draw_error (mkEnv [] stsW cfgFail roOne) [] [] [] gZero "job"
      (by decide) (by decide)).1,
   (C7_empty_pool_draw_error (mkEnv [] stsW cfgFail roOne) [] [] [] gZero "job"
      (by decide) (by decide)).2 [evW] "job" [evW] (by decide)⟩

/-- C6 (amended): in a run with at least one month of at least one turn
whose Setup and first turn succeed, the very first termination check (after
the first event-choice application) scores at least one strike whenever
money is still below the hard threshold at that check, and the run
terminates right there with failure exactly when that check reaches the
collections threshold.  Starting money below the threshold does not by
itself force failure at the first check: the effects applied before the
check may raise money, and the collections threshold may exceed the single
money strike. -/
theorem C6_first_check (events : List Event) (states : List StateDef)
    (cfg : Config) (ro : RealOps) (g : RNG) (st0 : RunState) (s2 : Stats)
    (a2 : List (String × Option ℤ)) (c2 : ℤ) (st1 : RunState)
    (h0 : initState events states cfg ro g = some st0)
    (hmm : 1 ≤ cfg.max_months) (htp : 1 ≤ cfg.turns_per_month)
    (hm : apply_state_monthly (mkEnv events states cfg ro) 0
      (monthly_passive ro cfg st0.stats) st0.active st0.arrears = some (s2, a2, c2))
    (ht : runTurn (mkEnv events states cfg ro) 0
      ⟨s2, a2, c2, st0.seen, st0.recent, st0.counts, st0.rng⟩ = some st1) :
    (st1.stats.money < cfg.money_hard →
      1 ≤ fatal_strikes st1.stats st1.active st1.arrears cfg) ∧
    (cfg.collections_strikes ≤ fatal_strikes st1.stats st1.active st1.arrears cfg →
      simulate_one events states cfg ro g = some (false, st1.seen.length, st1.counts)) := by
  constructor
  · intro hmoney
    unfold fatal_strikes
    rw [if_pos (show moneyBreach cfg st1.stats from hmoney)]
    split_ifs <;> omega
  · intro hk
    unfold simulate_one
    rw [h0]
    obtain ⟨n, hn⟩ : ∃ n, cfg.max_months = n + 1 := ⟨cfg.max_months - 1, by omega⟩
    obtain ⟨t, htn⟩ : ∃ t, cfg.turns_per_month = t + 1 := ⟨cfg.turns_per_month - 1, by omega⟩
    rw [hn]
    simp only [monthsLoop, mkEnv_ro, mkEnv_cfg]
    rw [hm]
    dsimp only
    rw [htn]
    simp only [turnsLoop]
    rw [ht]
    dsimp only
    simp only [mkEnv_cfg]
    rw [if_pos hk]

/-- C6 counterexample: starting money −5 is below the hard threshold 0, yet
with collections threshold 2 and no money effects the run never fails — the
very first termination check scores only the single money strike and the
run completes successfully. -/
theorem C6_counterexample :
    cfgBase.start_money < cfgBase.money_hard ∧
    cfgBase.collections_strikes = 2 ∧
    simulate_one [evW] stsW cfgBase roOne gZero = some (true, 1, [("E1", 1)]) := by
  decide

/-- C6 witness: with collections threshold 1 the same run does fail at its
very first termination check, returning the first-turn counters. -/
theorem C6_witness :
    simulate_one [evW] stsW cfgFail roOne gZero = some (false, 1, [("E1", 1)]) :=
  (C6_first_check [evW] stsW cfgFail roOne gZero st0W ⟨-5, 50, 10, 50, 50⟩
    [("S_RENT_DUE", none), ("S_PAYCHECK", none)] 0 st1W rfl (by decide) (by decide)
    rfl rfl).2 (by decide)

theorem state_index_id (states : List StateDef) (k : String) (d : StateDef) :
    alook (states.map (fun sd => (sd.id, sd))) k = some d → d.id = k := by
  induction states with
  | nil => intro h; cases h
  | cons sd t ih =>
    intro h
    simp only [List.map_cons, alook] at h
    by_cases hs : sd.id = k
    · rw [if_pos hs] at h
      cases h
      exact hs
    · rw [if_neg hs] at h
      exact ih h

theorem getLast?_mem {α : Type} : ∀ (l : List α) (x : α), l.getLast? = some x → x ∈ l := by
  intro l
  induction l with
  | nil => intro x h; cases h
  | cons a t ih =>
    intro x h
    cases t with
    | nil =>
      simp only [List.getLast?_singleton, Option.some.injEq] at h
      subst h
      exact List.mem_singleton_self a
    | cons b t2 =>
      rw [List.getLast?_cons_cons] at h
      exact List.mem_cons_of_mem a (ih x h)

theorem wcGo_mem {α : Type} :
    ∀ (l : List (α × ℚ)) (r acc : ℚ) (x : α), wcGo l r acc = some x → ∃ w, (x, w) ∈ l := by
  intro l
  induction l with
  | nil => intro r acc x h; cases h
  | cons p t ih =>
    intro r acc x h
    obtain ⟨it, w⟩ := p
    simp only [wcGo] at h
    by_cases hr : r ≤ acc + w
    · rw [if_pos hr] at h
      cases h
      exact ⟨w, List.mem_cons_self _ _⟩
    · rw [if_neg hr] at h
      obtain ⟨w2, hw2⟩ := ih r (acc + w) x h
      exact ⟨w2, List.mem_cons_of_mem _ hw2⟩

theorem weighted_choice_mem {α : Type} (items : List α) (ws : List ℚ) (u : ℚ)
    (x : α) : weighted_choice items ws u = some x → x ∈ items := by
  intro h
  unfold weighted_choice at h
  cases hgo : wcGo (items.zip ws) (u * ws.sum) 0 with
  | some y =>
    rw [hgo] at h
    cases h
    obtain ⟨w, hw⟩ := wcGo_mem _ _ _ _ hgo
    exact (List.of_mem_zip hw).1
  | none =>
    rw [hgo] at h
    exact getLast?_mem _ _ h

theorem build_pools_sub :
    ∀ (events : List Event) (tag : String) (pool : List Event),
      alook (build_pools events) tag = some pool → ∀ ev ∈ pool, ev ∈ events := by
  have main : ∀ (evs : List Event) (S : List Event) (ps : List (String × List Event)),
      (∀ e ∈ evs, e ∈ S) →
      (∀ t pool, alook ps t = some pool → ∀ e ∈ pool, e ∈ S) →
      ∀ t pool, alook (List.foldl poolAdd ps evs) t = some pool → ∀ e ∈ pool, e ∈ S := by
    intro evs
    induction evs with
    | nil => intro S ps _ hps; exact hps
    | cons ev tl ih =>
      intro S ps hevS hps
      simp only [List.foldl_cons]
      apply ih S
      · intro e he; exact hevS e (List.mem_cons_of_mem _ he)
      · intro t pool hlook e he
        unfold poolAdd at hlook
        cases hpe : alook ps ev.primary_tag with
        | some l =>
          rw [hpe] at hlook
          by_cases ht : t = ev.primary_tag
          · subst ht
            rw [alook_aset_self, hpe] at hlook
            simp only [Option.map_some', Option.some.injEq] at hlook
            subst hlook
            rcases List.mem_append.mp he with h1 | h2
            · exact hps _ _ hpe e h1
            · rw [List.mem_singleton.mp h2]
              exact hevS ev (List.mem_cons_self _ _)
          · rw [alook_aset_ne _ _ _ _ ht] at hlook
            exact hps t pool hlook e he
        | none =>
          rw [hpe, alook_append] at hlook
          cases hpt : alook ps t with
          | some l2 =>
            rw [hpt] at hlook
            cases hlook
            exact hps t _ hpt e he
          | none =>
            rw [hpt] at hlook
            simp only [alook] at hlook
            by_cases hft : ev.primary_tag = t
            · rw [if_pos hft] at hlook
              cases hlook
              rw [List.mem_singleton.mp he]
              exact hevS ev (List.mem_cons_self _ _)
            · rw [if_neg hft] at hlook
              cases hlook
  intro events tag pool h
  exact main events events [] (fun e he => he) (by intro t pool h2 e he; cases h2) tag pool h

theorem draw_event_mem (events : List Event) (states : List StateDef)
    (cfg : Config) (ro : RealOps) (active : List (String × Option ℤ))
    (seen : List (String × ℕ)) (recent : List String) (g : RNG)
    (ev : Event) (g2 : RNG)
    (h : draw_event (mkEnv events states cfg ro) active seen recent g = some (ev, g2)) :
    ev ∈ events := by
  unfold draw_event at h
  cases htag : weighted_choice ((tag_weights active (mkEnv events states cfg ro).stm).map Prod.fst)
      ((tag_weights active (mkEnv events states cfg ro).stm).map Prod.snd) (g.next.1) with
  | none => rw [htag] at h; cases h
  | some tag =>
    rw [htag] at h
    dsimp only at h
    cases hpool : alook (mkEnv events states cfg ro).pools tag with
    | none => rw [hpool] at h; cases h
    | some pool =>
      rw [hpool] at h
      dsimp only at h
      cases hev : weighted_choice pool
          (pool.map (eventWeight (mkEnv events states cfg ro).ro
            (mkEnv events states cfg ro).cfg seen recent)) (g.next.2.next.1) with
      | none => rw [hev] at h; cases h
      | some ev2 =>
        rw [hev] at h
        dsimp only at h
        cases h
        exact build_pools_sub events tag pool hpool _ (weighted_choice_mem _ _ _ _ hev)

theorem randChoice_mem {α : Type} (g : RNG) (xs : List α) (x : α) (g2 : RNG)
    (h : randChoice g xs = some (x, g2)) : x ∈ xs := by
  unfold randChoice at h
  cases hg : xs.get? (Int.toNat ⌊g.next.1 * (xs.length : ℚ)⌋) with
  | none => rw [hg] at h; cases h
  | some y =>
    rw [hg] at h
    cases h
    exact List.get?_mem hg

theorem alook_asetd_ne {α : Type} (a : List (String × α)) (k : String) (v : α)
    (j : String) (h : j ≠ k) : alook (asetd a k v) j = alook a j := by
  unfold asetd
  by_cases hh : ahas a k
  · rw [if_pos hh]
  · rw [if_neg hh, alook_append]
    cases haj : alook a j with
    | some w => rfl
    | none =>
      simp only [alook]
      rw [if_neg (fun e => h e.symm)]

theorem alook_add_state_ne (a : List (String × Option ℤ)) (sdef : StateDef)
    (j : String) (h : j ≠ sdef.id) : alook (add_state a sdef) j = alook a j := by
  unfold add_state
  by_cases ht : sdef.type = "counter"
  · rw [if_pos ht]
    exact alook_asetd_ne _ _ _ _ h
  · rw [if_neg ht]
    cases sdef.duration with
    | none => exact alook_asetd_ne _ _ _ _ h
    | some dur =>
      cases alook a sdef.id with
      | none =>
        rw [alook_append]
        cases haj : alook a j with
        | some w => rfl
        | none =>
          simp only [alook]
          rw [if_neg (fun e => h e.symm)]
      | some cur =>
        cases cur with
        | none => exact alook_aset_ne _ _ _ _ h
        | some r =>
          dsimp only
          by_cases hst : sdef.stacking.getD "refresh" = "extend"
          · rw [if_pos hst]; exact alook_aset_ne _ _ _ _ h
          · rw [if_neg hst]; exact alook_aset_ne _ _ _ _ h

theorem RentDueInv_add_state_absent (a : List (String × Option ℤ))
    (sdef : StateDef) (hid : sdef.id = "S_RENT_DUE")
    (hprop : sdef.type = "counter" ∨ sdef.duration = none)
    (habs : alook a "S_RENT_DUE" = none) : RentDueInv (add_state a sdef) := by
  have habs2 : ahas a sdef.id = false := by
    rw [hid]
    unfold ahas
    rw [habs]
    rfl
  have happ : RentDueInv (asetd a sdef.id none) := by
    unfold asetd
    rw [if_neg (by rw [habs2]; exact fun hc => nomatch hc)]
    unfold RentDueInv
    rw [alook_append, habs]
    simp [alook, hid]
  unfold add_state
  rcases hprop with hc | hd
  · rw [if_pos hc]; exact happ
  · by_cases ht : sdef.type = "counter"
    · rw [if_pos ht]; exact happ
    · rw [if_neg ht, hd]; exact happ

theorem RentDueInv_add_state (a : List (String × Option ℤ)) (sdef : StateDef)
    (hid : sdef.id = "S_RENT_DUE" → (sdef.type = "counter" ∨ sdef.duration = none))
    (h : RentDueInv a) : RentDueInv (add_state a sdef) := by
  by_cases hid2 : sdef.id = "S_RENT_DUE"
  · have hpresent : ahas a sdef.id = true := by
      rw [hid2]
      unfold ahas
      rw [h]
      rfl
    have hsetd : asetd a sdef.id none = a := by
      unfold asetd
      rw [if_pos hpresent]
    unfold add_state
    rcases hid hid2 with hc | hd
    · rw [if_pos hc, hsetd]; exact h
    · by_cases ht : sdef.type = "counter"
      · rw [if_pos ht, hsetd]; exact h
      · rw [if_neg ht, hd, hsetd]; exact h
  · unfold RentDueInv
    rw [alook_add_state_ne _ _ _ (fun e => hid2 e.symm)]
    exact h

theorem pythonRound_intCast (z : ℤ) : pythonRound ((z : ℤ) : ℚ) = z := by
  unfold pythonRound
  rw [Int.floor_intCast]
  rw [if_pos (by norm_num)]

theorem foldlM_option_inv {σ β : Type} (f : σ → β → Option σ) (P : σ → Prop)
    (hstep : ∀ s b s2, P s → f s b = some s2 → P s2) :
    ∀ (l : List β) (s s2 : σ), P s → l.foldlM f s = some s2 → P s2 := by
  intro l
  induction l with
  | nil =>
    intro s s2 h heq
    simp only [List.foldlM_nil] at heq
    cases heq
    exact h
  | cons b t ih =>
    intro s s2 h heq
    rw [List.foldlM_cons] at heq
    cases hstep2 : f s b with
    | none =>
      rw [hstep2] at heq
      exact Option.noConfusion heq
    | some s1 =>
      rw [hstep2] at heq
      exact ih s1 s2 (hstep s b s1 h hstep2) heq

theorem RentDueInv_removeFold :
    ∀ (sids : List String) (p : List (String × Option ℤ) × ℤ),
      "S_RENT_DUE" ∉ sids → RentDueInv p.1 →
      RentDueInv (sids.foldl removeStateStep p).1 := by
  intro sids
  induction sids with
  | nil => intro p _ h; exact h
  | cons sid tl ih =>
    intro p hmem h
    simp only [List.foldl_cons]
    apply ih
    · intro hx; exact hmem (List.mem_cons_of_mem _ hx)
    · unfold removeStateStep remove_state RentDueInv
      rw [alook_aerase_ne _ _ _ (fun e => hmem (by rw [e]; exact List.mem_cons_self _ _))]
      exact h

theorem RentDueInv_addStateByIdx (env : Env)
    (hidx : ∀ sid d, alook env.state_index sid = some d → d.id = sid)
    (hrd : ∀ d, alook env.state_index "S_RENT_DUE" = some d →
      d.type = "counter" ∨ d.duration = none)
    (a : List (String × Option ℤ)) (sid : String) (a2 : List (String × Option ℤ))
    (h : RentDueInv a) (heq : addStateByIdx env a sid = some a2) : RentDueInv a2 := by
  unfold addStateByIdx at heq
  cases hsi : alook env.state_index sid with
  | none => rw [hsi] at heq; cases heq
  | some sdef =>
    rw [hsi] at heq
    cases heq
    refine RentDueInv_add_state _ _ ?_ h
    intro hid
    have hsid := hidx sid sdef hsi
    rw [hsid] at hid
    subst hid
    exact hrd sdef hsi

theorem RentDueInv_apply_choice (env : Env) (month : ℕ) (ch : Choice)
    (s : Stats) (active : List (String × Option ℤ)) (arrears : ℤ)
    (out : Stats × List (String × Option ℤ) × ℤ)
    (hidx : ∀ sid d, alook env.state_index sid = some d → d.id = sid)
    (hrd : ∀ d, alook env.state_index "S_RENT_DUE" = some d →
      d.type = "counter" ∨ d.duration = none)
    (hrm : "S_RENT_DUE" ∉ ch.remove_states)
    (h : RentDueInv active)
    (heq : apply_choice env month ch s active arrears = some out) :
    RentDueInv out.2.1 := by
  unfold apply_choice at heq
  cases hf : ch.add_states.foldlM (addStateByIdx env) active with
  | none => rw [hf] at heq; cases heq
  | some active1 =>
    rw [hf] at heq
    cases heq
    dsimp only
    exact RentDueInv_removeFold ch.remove_states (active1, arrears) hrm
      (foldlM_option_inv (addStateByIdx env) RentDueInv
        (fun a sid a2 ha hs => RentDueInv_addStateByIdx env hidx hrd a sid a2 ha hs)
        ch.add_states active active1 h hf)

theorem RentDueInv_stateMonthlyStep (env : Env) (month : ℕ)
    (acc : Stats × List (String × Option ℤ) × ℤ) (sid : String)
    (out : Stats × List (String × Option ℤ) × ℤ)
    (h : RentDueInv acc.2.1)
    (heq : stateMonthlyStep env month acc sid = some out) : RentDueInv out.2.1 := by
  unfold stateMonthlyStep at heq
  cases hsi : alook env.state_index sid with
  | none => rw [hsi] at heq; cases heq
  | some sdef =>
    rw [hsi] at heq
    dsimp only at heq
    by_cases hc : sdef.type = "counter"
    · rw [if_pos hc] at heq
      cases heq
      exact h
    · rw [if_neg hc] at heq
      by_cases hsid : sid = "S_RENT_DUE"
      · subst hsid
        rw [h] at heq
        dsimp only at heq
        cases heq
        exact h
      · cases hal : alook acc.2.1 sid with
        | none => rw [hal] at heq; cases heq
        | some cur =>
          rw [hal] at heq
          cases cur with
          | none =>
            dsimp only at heq
            cases heq
            exact h
          | some rem =>
            dsimp only at heq
            by_cases hrem : rem - 1 ≤ 0
            · rw [if_pos hrem] at heq
              cases heq
              unfold remove_state RentDueInv
              rw [alook_aerase_ne _ _ _ (fun e => hsid e.symm)]
              exact h
            · rw [if_neg hrem] at heq
              cases heq
              unfold RentDueInv
              rw [alook_aset_ne _ _ _ _ (fun e => hsid e.symm)]
              exact h

theorem RentDueInv_apply_state_monthly (env : Env) (month : ℕ) (s : Stats)
    (a : List (String × Option ℤ)) (c : ℤ)
    (out : Stats × List (String × Option ℤ) × ℤ)
    (h : RentDueInv a)
    (heq : apply_state_monthly env month s a c = some out) : RentDueInv out.2.1 :=
  foldlM_option_inv (stateMonthlyStep env month)
    (fun acc => RentDueInv acc.2.1)
    (fun acc sid acc2 ha hs => RentDueInv_stateMonthlyStep env month acc sid acc2 ha hs)
    (a.map Prod.fst) (s, a, c) out h heq

theorem ahas_add_state_self (x : List (String × Option ℤ)) (sdef : StateDef) :
    ahas (add_state x sdef) sdef.id = true := by
  have hsetd : ahas (asetd x sdef.id (none : Option ℤ)) sdef.id = true := by
    unfold asetd
    by_cases hh : ahas x sdef.id
    · rw [if_pos hh]; exact hh
    · rw [if_neg hh]
      unfold ahas at hh ⊢
      rw [alook_append]
      cases hax : alook x sdef.id with
      | some v => rw [hax] at hh; exact absurd rfl hh
      | none => simp [alook]
  unfold add_state
  by_cases hc : sdef.type = "counter"
  · rw [if_pos hc]; exact hsetd
  · rw [if_neg hc]
    cases sdef.duration with
    | none => exact hsetd
    | some dur =>
      cases hax : alook x sdef.id with
      | none =>
        unfold ahas
        rw [alook_append, hax]
        simp [alook]
      | some cur =>
        cases cur with
        | none =>
          unfold ahas
          rw [alook_aset_self, hax]
          rfl
        | some r =>
          dsimp only
          by_cases hst : sdef.stacking.getD "refresh" = "extend"
          · rw [if_pos hst]
            unfold ahas
            rw [alook_aset_self, hax]
            rfl
          · rw [if_neg hst]
            unfold ahas
            rw [alook_aset_self, hax]
            rfl

theorem RentDueInv_month_end_rent (env : Env) (month : ℕ) (s : Stats)
    (a : List (String × Option ℤ)) (out : Stats × List (String × Option ℤ))
    (hidx : ∀ sid d, alook env.state_index sid = some d → d.id = sid)
    (hrd : ∀ d, alook env.state_index "S_RENT_DUE" = some d →
      d.type = "counter" ∨ d.duration = none)
    (h : RentDueInv a)
    (heq : month_end_rent env month s a = some out) : RentDueInv out.2 := by
  have hdue : ahas a "S_RENT_DUE" = true := by
    unfold ahas
    rw [h]
    rfl
  unfold month_end_rent at heq
  rw [if_pos hdue] at heq
  by_cases hpay : ((pythonRound (env.cfg.rent * cost_factor env.ro env.cfg month) : ℤ) : ℚ) ≤ s.money
  · rw [if_pos hpay] at heq
    cases hrdl : alook env.state_index "S_RENT_DUE" with
    | none => rw [hrdl] at heq; cases heq
    | some rd =>
      rw [hrdl] at heq
      dsimp only at heq
      cases heq
      dsimp only
      refine RentDueInv_add_state_absent _ _ (hidx _ _ hrdl) (hrd rd hrdl) ?_
      exact alook_aerase_self a _
  · rw [if_neg hpay] at heq
    cases har : alook env.state_index "S_RENT_ARREARS" with
    | none => rw [har] at heq; cases heq
    | some arr =>
      rw [har] at heq
      dsimp only at heq
      cases hrdl : alook env.state_index "S_RENT_DUE" with
      | none => rw [hrdl] at heq; cases heq
      | some rd =>
        rw [hrdl] at heq
        dsimp only at heq
        cases heq
        dsimp only
        refine RentDueInv_add_state_absent _ _ (hidx _ _ hrdl) (hrd rd hrdl) ?_
        rw [alook_add_state_ne _ _ _
          (fun e => by rw [hidx _ _ har] at e; exact absurd e (by decide))]
        exact alook_aerase_self a _

theorem RentDueInv_runTurn (events : List Event) (states : List StateDef)
    (cfg : Config) (ro : RealOps) (month : ℕ) (st st1 : RunState)
    (hrm : ∀ ev ∈ events, ∀ ch ∈ ev.choices, "S_RENT_DUE" ∉ ch.remove_states)
    (hrd : ∀ d, alook (mkEnv events states cfg ro).state_index "S_RENT_DUE" = some d →
      d.type = "counter" ∨ d.duration = none)
    (h : RentDueInv st.active)
    (heq : runTurn (mkEnv events states cfg ro) month st = some st1) :
    RentDueInv st1.active := by
  have hidx : ∀ sid d, alook (mkEnv events states cfg ro).state_index sid = some d → d.id = sid :=
    fun sid d hh => state_index_id states sid d hh
  unfold runTurn at heq
  cases hde : draw_event (mkEnv events states cfg ro) st.active st.seen st.recent st.rng with
  | none => rw [hde] at heq; cases heq
  | some p =>
    obtain ⟨ev, g1⟩ := p
    rw [hde] at heq
    dsimp only at heq
    cases hrc : randChoice g1 ev.choices with
    | none => rw [hrc] at heq; cases heq
    | some q =>
      obtain ⟨ch, g2⟩ := q
      rw [hrc] at heq
      dsimp only at heq
      cases hac : apply_choice (mkEnv events states cfg ro) month ch st.stats st.active st.arrears with
      | none => rw [hac] at heq; cases heq
      | some res =>
        obtain ⟨s1, a1, c1⟩ := res
        rw [hac] at heq
        dsimp only at heq
        cases heq
        have hch : "S_RENT_DUE" ∉ ch.remove_states :=
          hrm ev (draw_event_mem events states cfg ro _ _ _ _ _ _ hde) ch
            (randChoice_mem _ _ _ _ hrc)
        exact RentDueInv_apply_choice _ month ch st.stats st.active st.arrears
          (s1, a1, c1) hidx hrd hch h hac

theorem turnsLoopI_inl_RentDueInv (events : List Event) (states : List StateDef)
    (cfg : Config) (ro : RealOps) (month : ℕ)
    (hrm : ∀ ev ∈ events, ∀ ch ∈ ev.choices, "S_RENT_DUE" ∉ ch.remove_states)
    (hrd : ∀ d, alook (mkEnv events states cfg ro).state_index "S_RENT_DUE" = some d →
      d.type = "counter" ∨ d.duration = none) :
    ∀ (t : ℕ) (st : RunState) (r : RunState ⊕ RunRes) (tr : List ℕ),
      RentDueInv st.active →
      turnsLoopI (mkEnv events states cfg ro) month t st = some (r, tr) →
      ∀ st3, r = Sum.inl st3 → RentDueInv st3.active := by
  intro t
  induction t with
  | zero =>
    intro st r tr h heq st3 hr
    simp only [turnsLoopI, Option.some.injEq, Prod.mk.injEq] at heq
    obtain ⟨h1, _⟩ := heq
    subst h1
    cases hr
    exact h
  | succ t ih =>
    intro st r tr h heq st3 hr
    simp only [turnsLoopI] at heq
    cases hrt : runTurn (mkEnv events states cfg ro) month st with
    | none => rw [hrt] at heq; cases heq
    | some stA =>
      rw [hrt] at heq
      dsimp only at heq
      have hA : RentDueInv stA.active :=
        RentDueInv_runTurn events states cfg ro month st stA hrm hrd h hrt
      by_cases hk : (mkEnv events states cfg ro).cfg.collections_strikes ≤
          fatal_strikes stA.stats stA.active stA.arrears (mkEnv events states cfg ro).cfg
      · rw [if_pos hk] at heq
        simp only [Option.some.injEq, Prod.mk.injEq] at heq
        obtain ⟨h1, _⟩ := heq
        subst h1
        cases hr
      · rw [if_neg hk] at heq
        cases hti : turnsLoopI (mkEnv events states cfg ro) month t stA with
        | none => rw [hti] at heq; cases heq
        | some p =>
          obtain ⟨r1, tr1⟩ := p
          rw [hti] at heq
          dsimp only at heq
          simp only [Option.some.injEq, Prod.mk.injEq] at heq
          obtain ⟨h1, _⟩ := heq
          subst h1
          exact ih stA r1 tr1 hA hti st3 hr

theorem monthsLoopI_flags (events : List Event) (states : List StateDef)
    (cfg : Config) (ro : RealOps)
    (hrm : ∀ ev ∈ events, ∀ ch ∈ ev.choices, "S_RENT_DUE" ∉ ch.remove_states)
    (hrd : ∀ d, alook (mkEnv events states cfg ro).state_index "S_RENT_DUE" = some d →
      d.type = "counter" ∨ d.duration = none) :
    ∀ (n m : ℕ) (st : RunState) (out : RunOut) (tr : List ℕ) (fl : List Bool),
      RentDueInv st.active →
      monthsLoopI (mkEnv events states cfg ro) m n st = some (out, tr, fl) →
      ∀ b ∈ fl, b = true := by
  have hidx : ∀ sid d, alook (mkEnv events states cfg ro).state_index sid = some d → d.id = sid :=
    fun sid d hh => state_index_id states sid d hh
  intro n
  induction n with
  | zero =>
    intro m st out tr fl h heq b hb
    simp only [monthsLoopI, Option.some.injEq, Prod.mk.injEq] at heq
    obtain ⟨_, _, hfl⟩ := heq
    subst hfl
    cases hb
  | succ n ih =>
    intro m st out tr fl h heq b hb
    simp only [monthsLoopI] at heq
    cases hasm : apply_state_monthly (mkEnv events states cfg ro) m
        (monthly_passive (mkEnv events states cfg ro).ro (mkEnv events states cfg ro).cfg st.stats)
        st.active st.arrears with
    | none => rw [hasm] at heq; cases heq
    | some tpl =>
      obtain ⟨s2, a2, c2⟩ := tpl
      rw [hasm] at heq
      dsimp only at heq
      have hInv2 : RentDueInv a2 :=
        RentDueInv_apply_state_monthly _ _ _ _ _ _ h hasm
      cases hti : turnsLoopI (mkEnv events states cfg ro) m
          (mkEnv events states cfg ro).cfg.turns_per_month
          ⟨s2, a2, c2, st.seen, st.recent, st.counts, st.rng⟩ with
      | none => rw [hti] at heq; cases heq
      | some p =>
        obtain ⟨r, tr1⟩ := p
        rw [hti] at heq
        cases r with
        | inr rr =>
          dsimp only at heq
          simp only [Option.some.injEq, Prod.mk.injEq] at heq
          obtain ⟨_, _, hfl⟩ := heq
          subst hfl
          cases hb
        | inl st3 =>
          dsimp only at heq
          have hInv3 : RentDueInv st3.active :=
            turnsLoopI_inl_RentDueInv events states cfg ro m hrm hrd _ _ _ _ hInv2 hti st3 rfl
          have hflag : ahas st3.active "S_RENT_DUE" = true := by
            unfold ahas
            rw [hInv3]
            rfl
          cases hme : month_end_rent (mkEnv events states cfg ro) m st3.stats st3.active with
          | none => rw [hme] at heq; cases heq
          | some pr =>
            obtain ⟨s4, a4⟩ := pr
            rw [hme] at heq
            dsimp only at heq
            have hInv4 : RentDueInv a4 :=
              RentDueInv_month_end_rent _ _ _ _ (s4, a4) hidx hrd hInv3 hme
            by_cases hk : (mkEnv events states cfg ro).cfg.collections_strikes ≤
                fatal_strikes s4 a4 st3.arrears (mkEnv events states cfg ro).cfg
            · rw [if_pos hk] at heq
              simp only [Option.some.injEq, Prod.mk.injEq] at heq
              obtain ⟨_, _, hfl⟩ := heq
              subst hfl
              rcases List.mem_singleton.mp hb with rfl
              exact hflag
            · rw [if_neg hk] at heq
              cases hmi : monthsLoopI (mkEnv events states cfg ro) (m + 1) n
                  ⟨s4, a4, st3.arrears, st3.seen, st3.recent, st3.counts, st3.rng⟩ with
              | none => rw [hmi] at heq; cases heq
              | some q =>
                obtain ⟨out2, tr2, fl2⟩ := q
                rw [hmi] at heq
                dsimp only at heq
                simp only [Option.some.injEq, Prod.mk.injEq] at heq
                obtain ⟨_, _, hfl⟩ := heq
                subst hfl
                rcases List.mem_cons.mp hb with rfl | hb2
                · exact hflag
                · exact ih (m + 1) _ out2 tr2 fl2 hInv4 hmi b hb2

theorem stress_relief (s : Stats) (r : ℚ) (z : ℤ) (hz : s.stress = (z : ℚ))
    (h0 : 0 ≤ z) (h1 : z ≤ 100) :
    (apply_effects s [("money", r), ("stress", -1)]).stress = max 0 (s.stress - 1) := by
  show (applyEffect1 (applyEffect1 s "money" r) "stress" (-1)).stress = _
  rw [applyEffect1_stress, if_pos rfl]
  have hm : (applyEffect1 s "money" r).stress = s.stress := by
    rw [applyEffect1_stress, if_neg (by decide)]
  rw [hm, hz]
  have hcl : clamp ((z : ℚ) + -1) 0 100 = ((max 0 (z - 1) : ℤ) : ℚ) := by
    unfold clamp
    rw [min_eq_right (show (z : ℚ) + -1 ≤ 100 by
      have hc : (z : ℚ) ≤ 100 := by exact_mod_cast h1
      linarith)]
    push_cast
    rw [show (z : ℚ) + -1 = (z : ℚ) - 1 from by ring]
  rw [hcl, pythonRound_intCast]
  push_cast
  rfl

theorem pay_money_eq (s : Stats) (r : ℚ) :
    (apply_effects s [("money", -r), ("stress", -1)]).money = s.money - r := by
  rw [apply_effects_money_eq]
  have h1 : (("money" : String) == "money") = true := by decide
  have h2 : (("stress" : String) == "money") = false := by decide
  simp [moneyDeltaSum, List.filter_cons, h1, h2]
  ring

/-- C4 (amended): whenever a rent-due condition is active at the start of a
month-end rent check — an invariant that does hold for every check of every
run whose catalog neither removes the rent-due condition through an event
choice nor gives it a finite duration, since Setup installs it and every
check re-installs it — the check performs exactly one of payment success
(the cost-scaled rent is deducted in full with one point of stress relief
and no arrears condition is installed) or arrears installation (money is
left entirely untouched — no partial payment — and an arrears condition is
installed), according to whether money covers the rent, and a fresh
rent-due condition is installed in either case.  An event choice CAN remove
the rent-due condition mid-month, in which case the check performs neither. -/
theorem C4_rent_cycle :
    (∀ (env : Env) (month : ℕ) (s : Stats) (a : List (String × Option ℤ))
       (rd arr : StateDef),
      alook env.state_index "S_RENT_DUE" = some rd →
      rd.id = "S_RENT_DUE" →
      (rd.type = "counter" ∨ rd.duration = none) →
      alook env.state_index "S_RENT_ARREARS" = some arr →
      arr.id = "S_RENT_ARREARS" →
      ahas a "S_RENT_DUE" = true →
      ∃ s2 a2, month_end_rent env month s a = some (s2, a2) ∧
        ahas a2 "S_RENT_DUE" = true ∧
        (((pythonRound (env.cfg.rent * cost_factor env.ro env.cfg month) : ℤ) : ℚ) ≤ s.money →
          s2.money = s.money -
            ((pythonRound (env.cfg.rent * cost_factor env.ro env.cfg month) : ℤ) : ℚ) ∧
          ahas a2 "S_RENT_ARREARS" = ahas a "S_RENT_ARREARS" ∧
          (∀ z : ℤ, s.stress = (z : ℚ) → 0 ≤ z → z ≤ 100 →
            s2.stress = max 0 (s.stress - 1))) ∧
        (s.money < ((pythonRound (env.cfg.rent * cost_factor env.ro env.cfg month) : ℤ) : ℚ) →
          s2 = s ∧ ahas a2 "S_RENT_ARREARS" = true)) ∧
    (∀ (events : List Event) (states : List StateDef) (cfg : Config)
       (ro : RealOps) (g : RNG) (out : RunOut) (tr : List ℕ) (fl : List Bool),
      (∀ ev ∈ events, ∀ ch ∈ ev.choices, "S_RENT_DUE" ∉ ch.remove_states) →
      (∀ d, alook (states.map (fun sd => (sd.id, sd))) "S_RENT_DUE" = some d →
        d.type = "counter" ∨ d.duration = none) →
      simulateI events states cfg ro g = some (out, tr, fl) →
      ∀ b ∈ fl, b = true) := by
  constructor
  · intro env month s a rd arr hrdl hrdid hrdp har harid hdue
    by_cases hpay : ((pythonRound (env.cfg.rent * cost_factor env.ro env.cfg month) : ℤ) : ℚ) ≤ s.money
    · refine ⟨apply_effects s
          [("money", -((pythonRound (env.cfg.rent * cost_factor env.ro env.cfg month) : ℤ) : ℚ)),
           ("stress", -1)],
        add_state (remove_state a "S_RENT_DUE") rd, ?_, ?_, ?_, ?_⟩
      · unfold month_end_rent
        rw [if_pos hdue, if_pos hpay, hrdl]
      · have hinv : RentDueInv (add_state (remove_state a "S_RENT_DUE") rd) :=
          RentDueInv_add_state_absent _ _ hrdid hrdp (alook_aerase_self a _)
        unfold ahas
        rw [hinv]
        rfl
      · intro _
        refine ⟨pay_money_eq s _, ?_, ?_⟩
        · unfold ahas
          rw [alook_add_state_ne _ _ _ (by rw [hrdid]; decide)]
          unfold remove_state
          rw [alook_aerase_ne _ _ _ (by decide)]
        · intro z hz h0 h1
          exact stress_relief s _ z hz h0 h1
      · intro hlt
        exact absurd hpay (by linarith)
    · refine ⟨s, add_state (add_state (remove_state a "S_RENT_DUE") arr) rd, ?_, ?_, ?_, ?_⟩
      · unfold month_end_rent
        rw [if_pos hdue, if_neg hpay, har, hrdl]
      · have hinner : alook (add_state (remove_state a "S_RENT_DUE") arr) "S_RENT_DUE" = none := by
          rw [alook_add_state_ne _ _ _ (by rw [harid]; decide)]
          exact alook_aerase_self a _
        have hinv : RentDueInv (add_state (add_state (remove_state a "S_RENT_DUE") arr) rd) :=
          RentDueInv_add_state_absent _ _ hrdid hrdp hinner
        unfold ahas
        rw [hinv]
        rfl
      · intro hle
        exact absurd hle hpay
      · intro _
        refine ⟨rfl, ?_⟩
        have hself : ahas (add_state (remove_state a "S_RENT_DUE") arr) arr.id = true :=
          ahas_add_state_self _ arr
        rw [harid] at hself
        unfold ahas
        rw [alook_add_state_ne _ _ _ (by rw [hrdid]; decide)]
        exact hself
  · intro events states cfg ro g out tr fl hrm hrd heq
    unfold simulateI at heq
    cases hini : initState events states cfg ro g with
    | none => rw [hini] at heq; cases heq
    | some st0 =>
      rw [hini] at heq
      have hInv0 : RentDueInv st0.active := by
        unfold initState at hini
        cases hrdl : alook (mkEnv events states cfg ro).state_index "S_RENT_DUE" with
        | none => rw [hrdl] at hini; cases hini
        | some rd =>
          rw [hrdl] at hini
          cases hpc : alook (mkEnv events states cfg ro).state_index "S_PAYCHECK" with
          | none => rw [hpc] at hini; cases hini
          | some pc =>
            rw [hpc] at hini
            dsimp only at hini
            cases hini
            dsimp only
            have hrdid : rd.id = "S_RENT_DUE" := state_index_id states _ _ hrdl
            have hpcid : pc.id = "S_PAYCHECK" := state_index_id states _ _ hpc
            refine RentDueInv_add_state _ _ ?_ ?_
            · intro e
              rw [hpcid] at e
              exact absurd e (by decide)
            · exact RentDueInv_add_state_absent _ _ hrdid (hrd rd hrdl) rfl
      exact monthsLoopI_flags events states cfg ro hrm
        (fun d hd => hrd d hd) cfg.max_months 0 st0 out tr fl hInv0 heq

/-- C4 counterexample: a catalog whose only choice removes the rent-due
condition.  At the month-0 rent check the rent-due condition is NOT active
(the instrumented flag is false), and the check performs neither a payment
nor an arrears installation even though money (50) does not cover the rent
(100): the stats are returned untouched and no arrears condition appears. -/
theorem C4_counterexample :
    simulateI [evC4] stsW cfgC4 roOne gZero =
      some ((true, 1, [("E1", 1)]), [0, 0], [false]) ∧
    month_end_rent (mkEnv [evC4] stsW cfgC4 roOne) 0 ⟨50, 50, 10, 50, 50⟩
        [("S_PAYCHECK", none)] =
      some (⟨50, 50, 10, 50, 50⟩, [("S_PAYCHECK", none), ("S_RENT_DUE", none)]) :=
  ⟨by decide, by decide⟩

/-- C4 witness: a concrete check with rent-due active (in arrears, money 0
against rent 100), and the run of the conforming catalog, whose every
month-end check starts with rent-due active. -/
theorem C4_witness :
    (∃ s2 a2, month_end_rent (mkEnv [evW] stsW cfgBase roOne) 0 sW
        [("S_RENT_DUE", none)] = some (s2, a2) ∧
      ahas a2 "S_RENT_DUE" = true ∧
      (((pythonRound ((mkEnv [evW] stsW cfgBase roOne).cfg.rent *
          cost_factor (mkEnv [evW] stsW cfgBase roOne).ro
            (mkEnv [evW] stsW cfgBase roOne).cfg 0) : ℤ) : ℚ) ≤ sW.money →
        s2.money = sW.money -
          ((pythonRound ((mkEnv [evW] stsW cfgBase roOne).cfg.rent *
            cost_factor (mkEnv [evW] stsW cfgBase roOne).ro
              (mkEnv [evW] stsW cfgBase roOne).cfg 0) : ℤ) : ℚ) ∧
        ahas a2 "S_RENT_ARREARS" = ahas [("S_RENT_DUE", (none : Option ℤ))] "S_RENT_ARREARS" ∧
        (∀ z : ℤ, sW.stress = (z : ℚ) → 0 ≤ z → z ≤ 100 →
          s2.stress = max 0 (sW.stress - 1))) ∧
      (sW.money < ((pythonRound ((mkEnv [evW] stsW cfgBase roOne).cfg.rent *
          cost_factor (mkEnv [evW] stsW cfgBase roOne).ro
            (mkEnv [evW] stsW cfgBase roOne).cfg 0) : ℤ) : ℚ) →
        s2 = sW ∧ ahas a2 "S_RENT_ARREARS" = true)) ∧
    (∀ b ∈ [true], b = true) :=
  ⟨C4_rent_cycle.1 (mkEnv [evW] stsW cfgBase roOne) 0 sW
      [("S_RENT_DUE", none)] rdDef arDef (by decide) (by decide)
      (Or.inr (by decide)) (by decide) (by decide) (by decide),
   C4_rent_cycle.2 [evW] stsW cfgBase roOne gZero (true, 1, [("E1", 1)])
      [1, 1] [true] (by decide) (by decide) (by decide)⟩
